import Mathlib

/-!
Verification development for the `ocr_interpretor` repository: a shallow
embedding in Lean 4 of its lexer (`src/lexer.rs`), parser (`src/parser.rs`),
symbol table (`src/symbol_table.rs`) and tree-walking interpreter
(`src/interpretor.rs`), together with theorems settling the frozen claims
about the natural-language specification.

Modelling conventions:
- Rust panics (`panic!`, `unwrap`, `expect`, `todo!`, `unimplemented!`,
  out-of-bounds indexing, division by zero) are modelled as `none` / a
  `panic` result constructor; the two structured errors
  (`LexerError::UnrecognisedCharacter`, `ParserError::InvalidTokenInBlock`)
  are modelled as explicit `err` values.
- `u64` arithmetic is modelled on `Nat` with explicit wrapping `% 2^64`
  (release-profile two's-complement semantics); `/` and `%` by zero panic.
- Loops and recursion are given explicit fuel; fuel exhaustion is `none`
  (it never occurs for the concrete runs below, which supply ample fuel).
- Rust `String::len()` is the UTF-8 byte length, modelled by `utf8Len`.
-/

namespace OcrInterp

/-- `Position { line, col }` from `src/lib.rs`. -/
structure Position where
  line : Nat
  col : Nat
deriving Repr, DecidableEq

/-- `KeywordKind` from `src/lexer.rs` (note: contains `Then`, though the
lexer never produces it). -/
inductive KeywordKind where
  | Do | While | EndWhile | If | Then | Else | EndIf | Break | Array
deriving Repr, DecidableEq

/-- `SymbolKind` from `src/lexer.rs`. -/
inductive SymbolKind where
  | Equals | Plus | PlusEqual | Minus | MinusEqual | Multiply | Divide | Mod
  | DoubleEquals | Greater | GreaterEquals | Less | LessEquals
  | LeftBracket | RightBracket | LeftSqBracket | RightSqBracket | Quote | Dot
deriving Repr, DecidableEq

/-- `TokenKind` from `src/lexer.rs`; `Num` is Rust `u64`, modelled as `Nat`. -/
inductive TokenKind where
  | Ident : String → TokenKind
  | String : String → TokenKind
  | Number : Nat → TokenKind
  | Keyword : KeywordKind → TokenKind
  | Symbol : SymbolKind → TokenKind
deriving Repr, DecidableEq

/-- `Token { start, len, kind }` from `src/lexer.rs`. -/
structure Token where
  start : Position
  len : Nat
  kind : TokenKind
deriving Repr, DecidableEq

/-- `LexerError` from `src/error.rs`. -/
inductive LexerError where
  | UnrecognisedCharacter : Char → Position → String → LexerError
deriving Repr, DecidableEq

/-- `ParserError` from `src/error.rs`. -/
inductive ParserError where
  | InvalidTokenInBlock : Token → String → ParserError
deriving Repr, DecidableEq

/-! ## Lexer (`src/lexer.rs`)

The Rust lexer reverses the input string and pops from the end, i.e. it
scans the characters left to right; we model the remaining input as a
`List Char` consumed from the head.  `peek_char` yields `'\x00'` when no
character remains. -/

/-- The wrap modulus of Rust `u64`. -/
def U64MOD : Nat := 2 ^ 64

/-- UTF-8 byte length of a character sequence: Rust `String::len()`. -/
def utf8Len (cs : List Char) : Nat := (cs.map Char.utf8Size).sum

/-- Rust `char::is_alphanumeric`, used by `Lexer::ident_or_keyword` for
continuation characters.  Modelled exactly on ASCII alphanumerics plus the
Latin-1 Supplement letters U+00C0..U+00FF (excluding the two operators
`×` U+00D7 and `÷` U+00F7), all of which are Unicode-alphabetic; other
non-ASCII code points are conservatively treated as non-alphanumeric
(no theorem below depends on them). -/
def rust_is_alphanumeric (c : Char) : Bool :=
  c.isAlphanum ||
    (0xC0 ≤ c.toNat && c.toNat ≤ 0xFF && c.toNat ≠ 0xD7 && c.toNat ≠ 0xF7)

/-- Rust `char::is_numeric`, used by `Lexer::numeric` for continuation
characters.  Modelled on ASCII digits; non-ASCII numeric code points would
only lead into the `strnum.parse::<u64>()` panic path and are conservatively
treated as non-numeric (no theorem below depends on them). -/
def rust_is_numeric (c : Char) : Bool := c.isDigit

/-- Rust `u64::from_str` on a digit string: the value, or `none` on
overflow or a non-digit character (either way `Lexer::numeric` panics via
`expect`). -/
def parseU64 (cs : List Char) : Option Nat :=
  if cs ≠ [] ∧ cs.all Char.isDigit then
    let v := cs.foldl (fun a c => a * 10 + (c.toNat - 48)) 0
    if v < U64MOD then some v else none
  else none

/-- `Lexer::symbol`, made pure: the token kind and length pushed for the
two-character window `first, second` (`second = ' '` encodes "no `=`
follows"), or `none` for the
`panic!("Invalid Dual Character: ...")` fallback arm. -/
def symbolTok (first second : Char) : Option (SymbolKind × Nat) :=
  match first, second with
  | '=', '=' => some (.DoubleEquals, 2)
  | '=', ' ' => some (.Equals, 1)
  | '>', '=' => some (.GreaterEquals, 2)
  | '>', ' ' => some (.Greater, 1)
  | '<', '=' => some (.LessEquals, 2)
  | '<', ' ' => some (.Less, 1)
  | '+', ' ' => some (.Plus, 1)
  | '+', '=' => some (.PlusEqual, 2)
  | '-', ' ' => some (.Minus, 1)
  | '-', '=' => some (.MinusEqual, 2)
  | '*', ' ' => some (.Multiply, 1)
  | '/', ' ' => some (.Divide, 1)
  | '%', ' ' => some (.Mod, 1)
  | _, _ => none

/-- The keyword table of `Lexer::ident_or_keyword`, with the hard-coded
token lengths passed to `push_keyword` (note: no `then`). -/
def keywordOf (s : String) : Option (KeywordKind × Nat) :=
  match s with
  | "do" => some (.Do, 2)
  | "while" => some (.While, 5)
  | "endwhile" => some (.EndWhile, 8)
  | "if" => some (.If, 2)
  | "else" => some (.Else, 4)
  | "endif" => some (.EndIf, 5)
  | "break" => some (.Break, 5)
  | "array" => some (.Array, 5)
  | _ => none

/-- The string-literal loop of `Lexer::string`: split the remaining input
at the first `'"'` or `'\x00'` (`peek_char` yields `'\x00'` at end of
input, so the loop also stops there). -/
def takeStr : List Char → List Char × List Char
  | [] => ([], [])
  | c :: cs =>
    if c = '"' ∨ c = '\x00' then ([], c :: cs)
    else
      let r := takeStr cs
      (c :: r.1, r.2)

/-- The digit loop of `Lexer::numeric`. -/
def takeDigits : List Char → List Char × List Char
  | [] => ([], [])
  | c :: cs =>
    if rust_is_numeric c then
      let r := takeDigits cs
      (c :: r.1, r.2)
    else ([], c :: cs)

/-- The identifier loop of `Lexer::ident_or_keyword`. -/
def takeIdentChars : List Char → List Char × List Char
  | [] => ([], [])
  | c :: cs =>
    if rust_is_alphanumeric c || c = '_' then
      let r := takeIdentChars cs
      (c :: r.1, r.2)
    else ([], c :: cs)

/-- Outcome of one iteration of the `Lexer::lex` loop body. -/
inductive StepRes where
  | tok : Token → List Char → Position → StepRes
  | skip : List Char → Position → StepRes
  | err : LexerError → StepRes
  | panic : StepRes
deriving Repr, DecidableEq

/-- Whether `c` is one of the eight lookahead symbol characters of the
`'=' | '<' | '>' | '+' | '-' | '*' | '/' | '%'` match arm in `Lexer::lex`. -/
def isSymbolStart (c : Char) : Bool :=
  c = '=' || c = '<' || c = '>' || c = '+' || c = '-' || c = '*' || c = '/' || c = '%'

/-- The symbol arm of the `Lexer::lex` loop plus `Lexer::symbol`: peek
for `=` (consuming it when found) and push the one- or two-character
symbol; `p1` is the position after the first character was popped. -/
def lexSymbol (c : Char) (cs : List Char) (p1 : Position) : StepRes :=
  match cs with
  | '=' :: cs' =>
    match symbolTok c '=' with
    | some (k, len) => .tok ⟨⟨p1.line, p1.col - 1⟩, len, .Symbol k⟩ cs' ⟨p1.line, p1.col + 1⟩
    | none => .panic
  | _ =>
    match symbolTok c ' ' with
    | some (k, len) => .tok ⟨⟨p1.line, p1.col - 1⟩, len, .Symbol k⟩ cs p1
    | none => .panic

/-- `Lexer::string`: consume content until `"` or `\x00`/end of input,
consume the terminator (`panic_pop` fails on empty input), push the token
with `len = string.len() + 2` (UTF-8 bytes plus the two quotes). -/
def lexString (cs : List Char) (p1 : Position) : StepRes :=
  match (takeStr cs).2 with
  | [] => .panic
  | _ :: rest =>
    .tok ⟨⟨p1.line, p1.col - 1⟩, utf8Len (takeStr cs).1 + 2,
        .String (String.mk (takeStr cs).1)⟩ rest
      ⟨p1.line, p1.col + (takeStr cs).1.length + 1⟩

/-- `Lexer::numeric`: the maximal digit run starting with the already
consumed `c`, parsed with `u64::from_str` (`expect` panic on failure);
`len = strnum.len()`. -/
def lexNumeric (c : Char) (cs : List Char) (p1 : Position) : StepRes :=
  match parseU64 (c :: (takeDigits cs).1) with
  | some n =>
    .tok ⟨⟨p1.line, p1.col - 1⟩, utf8Len (c :: (takeDigits cs).1), .Number n⟩
      (takeDigits cs).2 ⟨p1.line, p1.col + (takeDigits cs).1.length⟩
  | none => .panic

/-- `Lexer::ident_or_keyword`: the maximal alphanumeric/`_` run starting
with the already consumed `c`, checked against the keyword table; an
identifier token gets `len = ident.len()` (UTF-8 bytes). -/
def lexIdentOrKeyword (c : Char) (cs : List Char) (p1 : Position) : StepRes :=
  match keywordOf (String.mk (c :: (takeIdentChars cs).1)) with
  | some (k, len) =>
    .tok ⟨⟨p1.line, p1.col - 1⟩, len, .Keyword k⟩ (takeIdentChars cs).2
      ⟨p1.line, p1.col + (takeIdentChars cs).1.length⟩
  | none =>
    .tok ⟨⟨p1.line, p1.col - 1⟩, utf8Len (c :: (takeIdentChars cs).1),
        .Ident (String.mk (c :: (takeIdentChars cs).1))⟩ (takeIdentChars cs).2
      ⟨p1.line, p1.col + (takeIdentChars cs).1.length⟩

/-- One iteration of the `Lexer::lex` loop body (`src/lexer.rs`, `lex`):
`c` is the character just popped by `panic_pop` (which advanced the column),
`cs` the remaining input, `p` the position before the pop, `og` the
original source (`input_og`, carried into errors). -/
def lexStep (og : String) (c : Char) (cs : List Char) (p : Position) : StepRes :=
  let p1 : Position := ⟨p.line, p.col + 1⟩
  if c = '\n' ∨ c = '\r' then .skip cs ⟨p.line + 1, 0⟩
  else if c = '\x00' ∨ c = ' ' then .skip cs p1
  else if isSymbolStart c then lexSymbol c cs p1
  else if c = '(' then .tok ⟨p1, 1, .Symbol .LeftBracket⟩ cs p1
  else if c = ')' then .tok ⟨p1, 1, .Symbol .RightBracket⟩ cs p1
  else if c = '[' then .tok ⟨p1, 1, .Symbol .LeftSqBracket⟩ cs p1
  else if c = ']' then .tok ⟨p1, 1, .Symbol .RightSqBracket⟩ cs p1
  else if c = '.' then .tok ⟨p1, 1, .Symbol .Dot⟩ cs p1
  else if c = '"' then lexString cs p1
  else if c.isDigit then lexNumeric c cs p1
  else if c.isAlpha ∨ c = '_' then lexIdentOrKeyword c cs p1
  else .err (.UnrecognisedCharacter c p1 og)

/-- Result of `Lexer::lex`: the token sequence, a structured error, or a
panic. -/
inductive LexRes where
  | ok : List Token → LexRes
  | err : LexerError → LexRes
  | panic : LexRes
deriving Repr, DecidableEq

/-- The `Lexer::lex` driver loop, with fuel. -/
def lexAll (og : String) : Nat → List Char → Position → List Token → LexRes
  | 0, _, _, _ => .panic
  | _ + 1, [], _, toks => .ok toks
  | fuel + 1, c :: cs, p, toks =>
    match lexStep og c cs p with
    | .skip rest p2 => lexAll og fuel rest p2 toks
    | .tok t rest p2 => lexAll og fuel rest p2 (toks ++ [t])
    | .err e => .err e
    | .panic => .panic

/-- `Lexer::new` followed by `Lexer::lex` on a source string: initial
position `(1, 0)`, ample fuel. -/
def lex (src : String) : LexRes :=
  lexAll src (src.length + 1) src.data ⟨1, 0⟩ []

/-! ## Values, operators and AST (`src/lib.rs`, `src/ast.rs`) -/

/-- `Op` from `src/lib.rs`. -/
inductive Op where
  | Plus | Minus | Multiply | Divide | Mod
  | Greater | GreaterEqual | Less | LessEqual | EqualTo
deriving Repr, DecidableEq

/-- `Value` from `src/lib.rs`; `Num = u64` modelled as `Nat`. -/
inductive Value where
  | Number : Nat → Value
  | String : String → Value
  | Boolean : Bool → Value
  | Array : List Value → Value
deriving Repr

/-- `Node` from `src/ast.rs` (the misspelling `ArrayAssingIndex` is the
source's). -/
inductive Node where
  | Block : List Node → Node
  | Assign : String → Node → Node
  | ArrayAssign : String → Node → Node
  | ArrayAssingIndex : String → Node → Node → Node
  | IfExpr : Node → Node → Node → Node
  | WhileStmt : Node → Node → Node
  | FuncCall : String → List Node → Node
  | VariableRef : String → Node
  | ArrayRef : String → Node → Node
  | BinaryExpr : Node → Op → Node → Node
  | DotExpr : String → String → Node
  | Primary : Value → Node
deriving Repr

/-! ## Parser (`src/parser.rs`)

`Parser::new` reverses the token vector and pops from the end, i.e. it
consumes tokens left to right; we model the remaining tokens as a
`List Token` consumed from the head.  Every parser method that returns a
bare `Node` in Rust panics on unexpected shapes; those panics, and
`Option::unwrap` / `Result::unwrap` / `expect` failures, are the `panic`
result.  Only `parse_block` constructs the structured
`ParserError::InvalidTokenInBlock`. -/

/-- Result of a parser method: a value, a structured `ParserError`, or a
panic. -/
inductive PRes (α : Type) where
  | ok : α → PRes α
  | err : ParserError → PRes α
  | panic : PRes α
deriving Repr

/-- The operator match of `Parser::parse_expr`: which token kinds are
taken as a binary operator at the `expr` level. -/
def exprOp : TokenKind → Option Op
  | .Symbol .Plus => some .Plus
  | .Symbol .Minus => some .Minus
  | .Symbol .Greater => some .Greater
  | .Symbol .GreaterEquals => some .GreaterEqual
  | .Symbol .Less => some .Less
  | .Symbol .LessEquals => some .LessEqual
  | .Symbol .DoubleEquals => some .EqualTo
  | _ => none

/-- The operator match of `Parser::parse_term`: which token kinds are
taken as a binary operator at the `term` level. -/
def termOp : TokenKind → Option Op
  | .Symbol .Multiply => some .Multiply
  | .Symbol .Divide => some .Divide
  | _ => none

mutual

/-- `Parser::parse_block`: the statement loop, with the accumulated
`nodes`.  Returns without consuming on `endif`/`endwhile`/`else`;
`InvalidTokenInBlock` on any other non-statement start. -/
def parse_block (input : String) : Nat → List Token → List Node → PRes (Node × List Token)
  | 0, _, _ => .panic
  | _ + 1, [], nodes => .ok (.Block nodes, [])
  | fuel + 1, t :: ts, nodes =>
    match t.kind with
    | .Ident _ =>
      match ts with
      | [] => .panic
      | t2 :: _ =>
        match t2.kind with
        | .Symbol .Equals =>
          match parse_assign input fuel (t :: ts) with
          | .ok (n, rest) => parse_block input fuel rest (nodes ++ [n])
          | .err e => .err e
          | .panic => .panic
        | .Symbol .LeftBracket =>
          match parse_func_call input fuel (t :: ts) with
          | .ok (n, rest) => parse_block input fuel rest (nodes ++ [n])
          | .err e => .err e
          | .panic => .panic
        | .Symbol .LeftSqBracket =>
          match parse_array_assign_ind input fuel (t :: ts) with
          | .ok (n, rest) => parse_block input fuel rest (nodes ++ [n])
          | .err e => .err e
          | .panic => .panic
        | .Symbol .Dot =>
          match parse_dot_expr input fuel (t :: ts) with
          | .ok (n, rest) => parse_block input fuel rest (nodes ++ [n])
          | .err e => .err e
          | .panic => .panic
        | _ => .panic
    | .Keyword .Array =>
      match parse_array input fuel (t :: ts) with
      | .ok (n, rest) => parse_block input fuel rest (nodes ++ [n])
      | .err e => .err e
      | .panic => .panic
    | .Keyword .If =>
      match parse_if input fuel (t :: ts) with
      | .ok (n, rest) => parse_block input fuel rest (nodes ++ [n])
      | .err e => .err e
      | .panic => .panic
    | .Keyword .While =>
      match parse_while input fuel (t :: ts) with
      | .ok (n, rest) => parse_block input fuel rest (nodes ++ [n])
      | .err e => .err e
      | .panic => .panic
    | .Keyword .EndIf => .ok (.Block nodes, t :: ts)
    | .Keyword .EndWhile => .ok (.Block nodes, t :: ts)
    | .Keyword .Else => .ok (.Block nodes, t :: ts)
    | _ => .err (.InvalidTokenInBlock t input)

/-- `Parser::parse_if`: consume `if`, parse the condition, consume the
next token unconditionally (the expected `then`), parse the then-block,
then consume a token and parse an else-block only if that token was
`else`.  The `.unwrap()` on the inner blocks turns their structured
errors into panics. -/
def parse_if (input : String) : Nat → List Token → PRes (Node × List Token)
  | 0, _ => .panic
  | fuel + 1, ts =>
    match ts with
    | [] => .panic
    | _ :: ts1 =>
      match parse_expr input fuel ts1 with
      | .ok (e, ts2) =>
        match ts2 with
        | [] => .panic
        | _ :: ts3 =>
          match parse_block input fuel ts3 [] with
          | .ok (thn, ts4) =>
            match ts4 with
            | [] => .panic
            | t4 :: ts5 =>
              match t4.kind with
              | .Keyword .Else =>
                match parse_block input fuel ts5 [] with
                | .ok (els, ts6) => .ok (.IfExpr e thn els, ts6)
                | _ => .panic
              | _ => .ok (.IfExpr e thn (.Block []), ts5)
          | _ => .panic
      | .err e => .err e
      | .panic => .panic

/-- `Parser::parse_while`: consume `while`, parse the condition, parse the
body block (`.unwrap()`), consume the trailing `endwhile` token
unconditionally. -/
def parse_while (input : String) : Nat → List Token → PRes (Node × List Token)
  | 0, _ => .panic
  | fuel + 1, ts =>
    match ts with
    | [] => .panic
    | _ :: ts1 =>
      match parse_expr input fuel ts1 with
      | .ok (e, ts2) =>
        match parse_block input fuel ts2 [] with
        | .ok (body, ts3) =>
          match ts3 with
          | [] => .panic
          | _ :: ts4 => .ok (.WhileStmt e body, ts4)
        | _ => .panic
      | .err e => .err e
      | .panic => .panic

/-- `Parser::parse_func_call`: `ident '(' (arg)? ')'`, pushing at most one
argument (`// TODO: Multiple args`); the final bracket is consumed
unconditionally. -/
def parse_func_call (input : String) : Nat → List Token → PRes (Node × List Token)
  | 0, _ => .panic
  | fuel + 1, ts =>
    match ts with
    | [] => .panic
    | t :: ts1 =>
      match t.kind with
      | .Ident x =>
        match ts1 with
        | [] => .panic
        | t2 :: ts2 =>
          match t2.kind with
          | .Symbol .LeftBracket =>
            match ts2 with
            | [] => .panic
            | t3 :: ts3 =>
              match t3.kind with
              | .Symbol .RightBracket => .ok (.FuncCall x [], ts3)
              | _ =>
                match parse_arg input fuel ts2 with
                | .ok (a, ts4) =>
                  match ts4 with
                  | [] => .panic
                  | _ :: ts5 => .ok (.FuncCall x [a], ts5)
                | .err e => .err e
                | .panic => .panic
          | _ => .panic
      | _ => .panic

/-- `Parser::parse_arg`: peek (unwrap) then parse a full expression. -/
def parse_arg (input : String) : Nat → List Token → PRes (Node × List Token)
  | 0, _ => .panic
  | fuel + 1, ts =>
    match ts with
    | [] => .panic
    | _ :: _ => parse_expr input fuel ts

/-- `Parser::parse_assign`: `ident '=' expr` (the `=` is consumed without
verification). -/
def parse_assign (input : String) : Nat → List Token → PRes (Node × List Token)
  | 0, _ => .panic
  | fuel + 1, ts =>
    match ts with
    | [] => .panic
    | t :: ts1 =>
      match t.kind with
      | .Ident x =>
        match ts1 with
        | [] => .panic
        | _ :: ts2 =>
          match ts2 with
          | [] => .panic
          | _ :: _ =>
            match parse_expr input fuel ts2 with
            | .ok (e, rest) => .ok (.Assign x e, rest)
            | .err e => .err e
            | .panic => .panic
      | _ => .panic

/-- `Parser::parse_array_assign_ind`: `ident '[' index-expr <tok> '=' value-expr`
(one token after the index expression is consumed unconditionally). -/
def parse_array_assign_ind (input : String) : Nat → List Token → PRes (Node × List Token)
  | 0, _ => .panic
  | fuel + 1, ts =>
    match ts with
    | [] => .panic
    | t :: ts1 =>
      match t.kind with
      | .Ident x =>
        match ts1 with
        | [] => .panic
        | t2 :: ts2 =>
          match t2.kind with
          | .Symbol .LeftSqBracket =>
            match parse_expr input fuel ts2 with
            | .ok (idx, ts3) =>
              match ts3 with
              | [] => .panic
              | _ :: ts4 =>
                match ts4 with
                | [] => .panic
                | t5 :: ts5 =>
                  match t5.kind with
                  | .Symbol .Equals =>
                    match parse_expr input fuel ts5 with
                    | .ok (v, rest) => .ok (.ArrayAssingIndex x idx v, rest)
                    | .err e => .err e
                    | .panic => .panic
                  | _ => .panic
            | .err e => .err e
            | .panic => .panic
          | _ => .panic
      | _ => .panic

/-- `Parser::parse_array`: `'array' ident '[' size-expr <tok>` (one token
after the size expression is consumed unconditionally). -/
def parse_array (input : String) : Nat → List Token → PRes (Node × List Token)
  | 0, _ => .panic
  | fuel + 1, ts =>
    match ts with
    | [] => .panic
    | _ :: ts1 =>
      match ts1 with
      | [] => .panic
      | t2 :: ts2 =>
        match t2.kind with
        | .Ident x =>
          match ts2 with
          | [] => .panic
          | t3 :: ts3 =>
            match t3.kind with
            | .Symbol .LeftSqBracket =>
              match parse_expr input fuel ts3 with
              | .ok (sz, ts4) =>
                match ts4 with
                | [] => .panic
                | _ :: rest => .ok (.ArrayAssign x sz, rest)
              | .err e => .err e
              | .panic => .panic
            | _ => .panic
        | _ => .panic

/-- `Parser::parse_dot_expr`: `ident '.' ident` (the `.` is consumed
without verification). -/
def parse_dot_expr (input : String) : Nat → List Token → PRes (Node × List Token)
  | 0, _ => .panic
  | fuel + 1, ts =>
    match ts with
    | [] => .panic
    | t :: ts1 =>
      match t.kind with
      | .Ident l =>
        match ts1 with
        | [] => .panic
        | _ :: ts2 =>
          match ts2 with
          | [] => .panic
          | t3 :: ts3 =>
            match t3.kind with
            | .Ident r => .ok (.DotExpr l r, ts3)
            | _ => .panic
      | _ => .panic

/-- `Parser::parse_expr`: parse a term; if the next token is an
`expr`-level operator, consume it and parse the right operand with the
full `parse_expr` (the design-critical right recursion). -/
def parse_expr (input : String) : Nat → List Token → PRes (Node × List Token)
  | 0, _ => .panic
  | fuel + 1, ts =>
    match parse_term input fuel ts with
    | .ok (left, ts1) =>
      match ts1 with
      | [] => .ok (left, ts1)
      | tok :: rest =>
        match exprOp tok.kind with
        | some op =>
          match parse_expr input fuel rest with
          | .ok (right, ts2) => .ok (.BinaryExpr left op right, ts2)
          | .err e => .err e
          | .panic => .panic
        | none => .ok (left, ts1)
    | .err e => .err e
    | .panic => .panic

/-- `Parser::parse_term`: parse a factor; if the next token is `*` or `/`,
consume it and parse the right operand with the full `parse_expr`
(not `parse_term`/`parse_factor`). -/
def parse_term (input : String) : Nat → List Token → PRes (Node × List Token)
  | 0, _ => .panic
  | fuel + 1, ts =>
    match parse_factor input fuel ts with
    | .ok (left, ts1) =>
      match ts1 with
      | [] => .ok (left, ts1)
      | tok :: rest =>
        match termOp tok.kind with
        | some op =>
          match parse_expr input fuel rest with
          | .ok (right, ts2) => .ok (.BinaryExpr left op right, ts2)
          | .err e => .err e
          | .panic => .panic
        | none => .ok (left, ts1)
    | .err e => .err e
    | .panic => .panic

/-- `Parser::parse_factor`: number, string, bracketed expression, or an
identifier form (call / array ref / dot expression / variable ref,
disambiguated by a second lookahead). -/
def parse_factor (input : String) : Nat → List Token → PRes (Node × List Token)
  | 0, _ => .panic
  | fuel + 1, ts =>
    match ts with
    | [] => .panic
    | t :: ts1 =>
      match t.kind with
      | .Number x => .ok (.Primary (.Number x), ts1)
      | .String s => .ok (.Primary (.String s), ts1)
      | .Ident x =>
        match ts1 with
        | [] => .ok (.VariableRef x, ts1)
        | t2 :: _ =>
          if t2.kind = .Symbol .LeftBracket then parse_func_call input fuel (t :: ts1)
          else if t2.kind = .Symbol .LeftSqBracket then parse_array_ref input fuel (t :: ts1)
          else if t2.kind = .Symbol .Dot then parse_dot_expr input fuel (t :: ts1)
          else .ok (.VariableRef x, ts1)
      | .Symbol .LeftBracket =>
        match parse_expr input fuel ts1 with
        | .ok (e, ts2) =>
          match ts2 with
          | [] => .panic
          | _ :: ts3 => .ok (e, ts3)
        | .err e => .err e
        | .panic => .panic
      | _ => .panic

/-- `Parser::parse_array_ref`: `ident '[' index-expr <tok>` (the final
`]` is consumed unconditionally). -/
def parse_array_ref (input : String) : Nat → List Token → PRes (Node × List Token)
  | 0, _ => .panic
  | fuel + 1, ts =>
    match ts with
    | [] => .panic
    | t :: ts1 =>
      match t.kind with
      | .Ident x =>
        match ts1 with
        | [] => .panic
        | t2 :: ts2 =>
          match t2.kind with
          | .Symbol .LeftSqBracket =>
            match parse_expr input fuel ts2 with
            | .ok (idx, ts3) =>
              match ts3 with
              | [] => .panic
              | _ :: rest => .ok (.ArrayRef x idx, rest)
            | .err e => .err e
            | .panic => .panic
          | _ => .panic
      | _ => .panic

end

/-- `Parser::parse`: parse the whole token stream as one block. -/
def parse (input : String) (fuel : Nat) (ts : List Token) : PRes (Node × List Token) :=
  parse_block input fuel ts []

/-- The token constructor used by the parser unit tests
(`Parser::parse_from_list`): position `(0, 0)` and length `0`. -/
def mkTok (k : TokenKind) : Token := ⟨⟨0, 0⟩, 0, k⟩

/-! ## Symbol table (`src/symbol_table.rs`)

The `HashMap<String, Value>` is modelled as an association list in which
`insert` prepends and lookup takes the first match — observably the same
overwrite-on-insert map semantics through `get_variable`, the only read. -/

/-- The `symbols` map of `SymbolTable`. -/
abbrev SymbolTable := List (String × Value)

/-- `SymbolTable::assign_variable`: `HashMap::insert`, overwriting. -/
def assign_variable (t : SymbolTable) (ident : String) (v : Value) : SymbolTable :=
  (ident, v) :: t

/-- `SymbolTable::get_variable`: `self.symbols.get(&ident).unwrap().clone()` —
`none` models the `.unwrap()` panic on an unbound identifier. -/
def get_variable (t : SymbolTable) (ident : String) : Option Value :=
  match t.find? (fun p => p.1 == ident) with
  | some p => some p.2
  | none => none

/-! ## Value display (`src/lib.rs` `impl Display for Value`) -/

/-- One character of Rust `str` `{:?}` (Debug) escaping, used when an
`Array` value is displayed (`write!("{:?}", vec)`).  Modelled for the
common escapes `\\ \" \n \r \t`; other control characters (which Rust
would escape as `\u{..}`) pass through verbatim — no theorem below
depends on them. -/
def escapeDebugChar (c : Char) : String :=
  if c = '\\' then "\\\\"
  else if c = '"' then "\\\""
  else if c = '\n' then "\\n"
  else if c = '\r' then "\\r"
  else if c = '\t' then "\\t"
  else String.mk [c]

/-- Rust `str` Debug escaping of a whole string. -/
def escapeDebug (s : String) : String := String.join (s.data.map escapeDebugChar)

mutual

/-- Rust `{:?}` (derived Debug) of a `Value`. -/
def debugFmt : Value → String
  | .Number n => "Number(" ++ toString n ++ ")"
  | .String s => "String(\"" ++ escapeDebug s ++ "\")"
  | .Boolean b => "Boolean(" ++ (cond b "true" "false") ++ ")"
  | .Array vs => "Array(" ++ debugFmtList vs ++ ")"

/-- Rust `{:?}` of a `Vec<Value>`: `[v0, v1, ...]`. -/
def debugFmtList (vs : List Value) : String := "[" ++ debugFmtInner vs ++ "]"

/-- The comma-separated element list of `{:?}` on a `Vec<Value>`. -/
def debugFmtInner : List Value → String
  | [] => ""
  | [v] => debugFmt v
  | v :: vs => debugFmt v ++ ", " ++ debugFmtInner vs

end

/-- `impl Display for Value` (`src/lib.rs`): numbers in decimal, strings
verbatim, booleans as `true`/`false`, arrays via `{:?}` of the vector. -/
def display : Value → String
  | .Number n => toString n
  | .String s => s
  | .Boolean b => cond b "true" "false"
  | .Array vs => debugFmtList vs

/-- `Interpretor::concat`: `Value::String(format!("{}{}", lvalue, rvalue))`. -/
def concat (lv rv : Value) : Value := .String (display lv ++ display rv)

/-! ## Interpreter (`src/interpretor.rs`)

State: the symbol table plus the console, modelled as a list of remaining
stdin lines (already newline-stripped, absorbing the `input.pop()`) and
the ordered list of chunks written to stdout.  All functions take fuel
(the `while` loop can diverge); fuel exhaustion and every Rust panic are
`none`. -/

/-- The interpreter's mutable context: symbol table and console. -/
structure InterpState where
  symbols : SymbolTable
  stdin : List String
  stdout : List String
deriving Repr

/-- `io::stdin().read_line(..)` followed by `input.pop()`: take the next
line (newline already stripped in the model); at end of input `read_line`
returns `Ok(0)` and the result is the empty string. -/
def readLine (st : InterpState) : Value × InterpState :=
  match st.stdin with
  | [] => (.String "", st)
  | l :: rest => (.String l, { st with stdin := rest })

/-- `Interpretor::builtin_length`: `arr.len()` for an `Array` binding;
anything else panics. -/
def builtin_length (st : InterpState) (ident : String) : Option Value :=
  match get_variable st.symbols ident with
  | some (.Array xs) => some (.Number xs.length)
  | _ => none

/-- `Interpretor::run_dot_expr`: only the builtin property `length`. -/
def run_dot_expr (st : InterpState) (node : Node) : Option (Value × InterpState) :=
  match node with
  | .DotExpr _ r =>
    if r = "length" then
      match node with
      | .DotExpr l _ =>
        match builtin_length st l with
        | some v => some (v, st)
        | none => none
      | _ => none
    else none
  | _ => none

mutual

/-- `Interpretor::run_node`: statement dispatch (`todo!` on expression
nodes used as statements). -/
def run_node : Nat → InterpState → Node → Option InterpState
  | 0, _, _ => none
  | fuel + 1, st, node =>
    match node with
    | .FuncCall i args =>
      match run_func fuel st (.FuncCall i args) with
      | some (_, st1) => some st1
      | none => none
    | .Assign i v => run_assign fuel st (.Assign i v)
    | .ArrayAssign i s => run_array_assign fuel st (.ArrayAssign i s)
    | .ArrayAssingIndex i x v => run_array_assign_ind fuel st (.ArrayAssingIndex i x v)
    | .IfExpr e t el => run_if fuel st (.IfExpr e t el)
    | .WhileStmt e b => run_while fuel st (.WhileStmt e b)
    | .Block ns => run_block fuel st ns
    | _ => none

/-- `Interpretor::run_block`: execute each child in order. -/
def run_block : Nat → InterpState → List Node → Option InterpState
  | 0, _, _ => none
  | fuel + 1, st, nodes =>
    match nodes with
    | [] => some st
    | n :: rest =>
      match run_node fuel st n with
      | some st1 => run_block fuel st1 rest
      | none => none

/-- `Interpretor::run_if`: the condition is evaluated with `run_expr`
(which only accepts a `BinaryExpr`); a `Boolean` result selects the
branch, anything else panics. -/
def run_if : Nat → InterpState → Node → Option InterpState
  | 0, _, _ => none
  | fuel + 1, st, node =>
    match node with
    | .IfExpr e thn els =>
      match run_expr fuel st e with
      | some (.Boolean true, st1) => run_node fuel st1 thn
      | some (.Boolean false, st1) => run_node fuel st1 els
      | some _ => none
      | none => none
    | _ => none

/-- `Interpretor::run_while`: `while evaluate_condition(e) { run_node(body) }`. -/
def run_while : Nat → InterpState → Node → Option InterpState
  | 0, _, _ => none
  | fuel + 1, st, node =>
    match node with
    | .WhileStmt e body => while_loop fuel st e body
    | _ => none

/-- The loop of `Interpretor::run_while`. -/
def while_loop : Nat → InterpState → Node → Node → Option InterpState
  | 0, _, _, _ => none
  | fuel + 1, st, e, body =>
    match evaluate_condition fuel st e with
    | some (true, st1) =>
      match run_node fuel st1 body with
      | some st2 => while_loop fuel st2 e body
      | none => none
    | some (false, st1) => some st1
    | none => none

/-- `Interpretor::evaluate_condition`: `run_expr` must yield a `Boolean`. -/
def evaluate_condition : Nat → InterpState → Node → Option (Bool × InterpState)
  | 0, _, _ => none
  | fuel + 1, st, e =>
    match run_expr fuel st e with
    | some (.Boolean b, st1) => some (b, st1)
    | some _ => none
    | none => none

/-- `Interpretor::run_func`: dispatch on the built-in name; `print`
returns no value, `input` and `int` return one; other identifiers are
`todo!`. -/
def run_func : Nat → InterpState → Node → Option (Option Value × InterpState)
  | 0, _, _ => none
  | fuel + 1, st, node =>
    match node with
    | .FuncCall ident args =>
      if ident = "print" then
        match builtin_print fuel st args with
        | some st1 => some (none, st1)
        | none => none
      else if ident = "input" then
        match builtin_input fuel st args with
        | some (v, st1) => some (some v, st1)
        | none => none
      else if ident = "int" then
        match builtin_casti fuel st args with
        | some (v, st1) => some (some v, st1)
        | none => none
      else none
    | _ => none

/-- `Interpretor::run_assign`: evaluate the right-hand side according to
its node kind and overwrite the binding. -/
def run_assign : Nat → InterpState → Node → Option InterpState
  | 0, _, _ => none
  | fuel + 1, st, node =>
    match node with
    | .Assign ident value =>
      match value with
      | .BinaryExpr l op r =>
        match run_expr fuel st (.BinaryExpr l op r) with
        | some (v, st1) => some { st1 with symbols := assign_variable st1.symbols ident v }
        | none => none
      | .VariableRef x =>
        match get_expr_val fuel st (.VariableRef x) with
        | some (v, st1) => some { st1 with symbols := assign_variable st1.symbols ident v }
        | none => none
      | .ArrayRef a i =>
        match get_array_ref fuel st (.ArrayRef a i) with
        | some (v, st1) => some { st1 with symbols := assign_variable st1.symbols ident v }
        | none => none
      | .DotExpr l r =>
        match run_dot_expr st (.DotExpr l r) with
        | some (v, st1) => some { st1 with symbols := assign_variable st1.symbols ident v }
        | none => none
      | .FuncCall i as =>
        match run_func fuel st (.FuncCall i as) with
        | some (some v, st1) => some { st1 with symbols := assign_variable st1.symbols ident v }
        | some (none, _) => none
        | none => none
      | .Primary x => some { st with symbols := assign_variable st.symbols ident x }
      | _ => none
    | _ => none

/-- `Interpretor::run_array_assign`: evaluate the size to a `Number` and
bind an array of that many `Number(0)` slots. -/
def run_array_assign : Nat → InterpState → Node → Option InterpState
  | 0, _, _ => none
  | fuel + 1, st, node =>
    match node with
    | .ArrayAssign ident size =>
      match get_expr_val fuel st size with
      | some (.Number n, st1) =>
        some { st1 with
               symbols := assign_variable st1.symbols ident (.Array (List.replicate n (.Number 0))) }
      | some _ => none
      | none => none
    | _ => none

/-- `Interpretor::run_array_assign_ind`: evaluate index then value, fetch
the array, replace the slot (`vec[i] = v` panics out of range), rebind. -/
def run_array_assign_ind : Nat → InterpState → Node → Option InterpState
  | 0, _, _ => none
  | fuel + 1, st, node =>
    match node with
    | .ArrayAssingIndex ident idx value =>
      match get_expr_val fuel st idx with
      | some (.Number i, st1) =>
        match get_expr_val fuel st1 value with
        | some (v, st2) =>
          match get_variable st2.symbols ident with
          | some (.Array xs) =>
            if i < xs.length then
              some { st2 with symbols := assign_variable st2.symbols ident (.Array (xs.set i v)) }
            else none
          | some _ => none
          | none => none
        | none => none
      | some _ => none
      | none => none
    | _ => none

/-- `Interpretor::run_expr`: only a `BinaryExpr` is accepted; both
operands are evaluated left first, then the type/operator dispatch of
`src/interpretor.rs` lines 205-225. -/
def run_expr : Nat → InterpState → Node → Option (Value × InterpState)
  | 0, _, _ => none
  | fuel + 1, st, node =>
    match node with
    | .BinaryExpr l op r =>
      match get_expr_val fuel st l with
      | some (lv, st1) =>
        match get_expr_val fuel st1 r with
        | some (rv, st2) =>
          match lv with
          | .Number x =>
            match rv with
            | .Number y =>
              match op with
              | .Plus => some (.Number ((x + y) % U64MOD), st2)
              | .Minus => some (.Number ((x + U64MOD - y) % U64MOD), st2)
              | .Multiply => some (.Number ((x * y) % U64MOD), st2)
              | .Divide => if y = 0 then none else some (.Number (x / y), st2)
              | .Mod => if y = 0 then none else some (.Number (x % y), st2)
              | .EqualTo => some (.Boolean (x == y), st2)
              | .Less => some (.Boolean (decide (x < y)), st2)
              | .LessEqual => some (.Boolean (decide (x ≤ y)), st2)
              | .Greater => some (.Boolean (decide (x > y)), st2)
              | .GreaterEqual => some (.Boolean (decide (x ≥ y)), st2)
            | .String _ => some (concat lv rv, st2)
            | _ => none
          | .String _ => some (concat lv rv, st2)
          | _ => none
        | none => none
      | none => none
    | _ => none

/-- `Interpretor::get_expr_val`: value of an expression-position node. -/
def get_expr_val : Nat → InterpState → Node → Option (Value × InterpState)
  | 0, _, _ => none
  | fuel + 1, st, node =>
    match node with
    | .BinaryExpr l op r => run_expr fuel st (.BinaryExpr l op r)
    | .VariableRef x =>
      match get_variable st.symbols x with
      | some v => some (v, st)
      | none => none
    | .ArrayRef i idx => get_array_ref fuel st (.ArrayRef i idx)
    | .FuncCall i args =>
      match run_func fuel st (.FuncCall i args) with
      | some (some v, st1) => some (v, st1)
      | some (none, _) => none
      | none => none
    | .DotExpr l r => run_dot_expr st (.DotExpr l r)
    | .Primary x => some (x, st)
    | _ => none

/-- `Interpretor::get_array_ref`: evaluate the index to a `Number`, fetch
the array, return the element (`vec[i]` panics out of range). -/
def get_array_ref : Nat → InterpState → Node → Option (Value × InterpState)
  | 0, _, _ => none
  | fuel + 1, st, node =>
    match node with
    | .ArrayRef ident idx =>
      match get_expr_val fuel st idx with
      | some (.Number i, st1) =>
        match get_variable st1.symbols ident with
        | some (.Array xs) =>
          match xs.get? i with
          | some v => some (v, st1)
          | none => none
        | some _ => none
        | none => none
      | some _ => none
      | none => none
    | _ => none

/-- `Interpretor::builtin_print`: zero arguments print a blank line, more
than one panics, one is evaluated and printed with a newline. -/
def builtin_print : Nat → InterpState → List Node → Option InterpState
  | 0, _, _ => none
  | fuel + 1, st, args =>
    match args with
    | [] => some { st with stdout := st.stdout ++ ["\n"] }
    | [a] =>
      match get_expr_val fuel st a with
      | some (v, st1) => some { st1 with stdout := st1.stdout ++ [display v ++ "\n"] }
      | none => none
    | _ => none

/-- `Interpretor::builtin_input`: more than one argument panics; an
optional prompt (`Primary`, `BinaryExpr` or `VariableRef` only) is printed
without newline, then one line is read from stdin. -/
def builtin_input : Nat → InterpState → List Node → Option (Value × InterpState)
  | 0, _, _ => none
  | fuel + 1, st, args =>
    match args with
    | [] => some (readLine st)
    | [a] =>
      match a with
      | .Primary x => some (readLine { st with stdout := st.stdout ++ [display x] })
      | .BinaryExpr l op r =>
        match run_expr fuel st (.BinaryExpr l op r) with
        | some (v, st1) => some (readLine { st1 with stdout := st1.stdout ++ [display v] })
        | none => none
      | .VariableRef x =>
        match get_variable st.symbols x with
        | some v => some (readLine { st with stdout := st.stdout ++ [display v] })
        | none => none
      | _ => none
    | _ => none

/-- `Interpretor::builtin_casti`: more than one argument panics; the one
argument must be a string literal, a `String` variable, or a call
returning `String`, parsed with `u64::from_str` (panic on failure). -/
def builtin_casti : Nat → InterpState → List Node → Option (Value × InterpState)
  | 0, _, _ => none
  | fuel + 1, st, args =>
    match args with
    | [] => none
    | [a] =>
      match a with
      | .Primary (.String x) =>
        match parseU64 x.data with
        | some n => some (.Number n, st)
        | none => none
      | .VariableRef x =>
        match get_variable st.symbols x with
        | some (.String s) =>
          match parseU64 s.data with
          | some n => some (.Number n, st)
          | none => none
        | some _ => none
        | none => none
      | .FuncCall i as =>
        match run_func fuel st (.FuncCall i as) with
        | some (some (.String s), st1) =>
          match parseU64 s.data with
          | some n => some (.Number n, st1)
          | none => none
        | some (some _, _) => none
        | some (none, _) => none
        | none => none
      | _ => none
    | _ => none

end

/-- `Interpretor::new` + `Interpretor::run`: execute a root `Block`
against a fresh symbol table (anything else panics). -/
def run (fuel : Nat) (stdin : List String) (ast : Node) : Option InterpState :=
  match ast with
  | .Block ns => run_block fuel ⟨[], stdin, []⟩ ns
  | _ => none

/-! ## Specification-side predicates and functions -/

mutual

/-- Specification-side invariant (claim C10): every `FuncCall` in the
tree carries at most one argument. -/
def argsOK : Node → Bool
  | .Block ns => argsOKList ns
  | .Assign _ v => argsOK v
  | .ArrayAssign _ s => argsOK s
  | .ArrayAssingIndex _ i v => argsOK i && argsOK v
  | .IfExpr e t el => argsOK e && argsOK t && argsOK el
  | .WhileStmt e b => argsOK e && argsOK b
  | .FuncCall _ args => decide (args.length ≤ 1) && argsOKList args
  | .VariableRef _ => true
  | .ArrayRef _ i => argsOK i
  | .BinaryExpr l _ r => argsOK l && argsOK r
  | .DotExpr _ _ => true
  | .Primary _ => true

/-- `argsOK` on every node of a list. -/
def argsOKList : List Node → Bool
  | [] => true
  | n :: ns => argsOK n && argsOKList ns

end

/-- Specification-side description of the `BinaryExpr` dispatch, as the
amended claim C2 states it: two `Number`s follow the arithmetic /
comparison table (with wrapping `+ - *` and panicking `/ %` by zero); a
`String` on the left, or a `Number` on the left with a `String` on the
right, concatenates the display forms whatever the operator; every other
combination of evaluated operand values is a fatal runtime error. -/
def binOpSpec (lv : Value) (op : Op) (rv : Value) : Option Value :=
  match lv, rv with
  | .Number x, .Number y =>
    match op with
    | .Plus => some (.Number ((x + y) % U64MOD))
    | .Minus => some (.Number ((x + U64MOD - y) % U64MOD))
    | .Multiply => some (.Number ((x * y) % U64MOD))
    | .Divide => if y = 0 then none else some (.Number (x / y))
    | .Mod => if y = 0 then none else some (.Number (x % y))
    | .EqualTo => some (.Boolean (x == y))
    | .Less => some (.Boolean (decide (x < y)))
    | .LessEqual => some (.Boolean (decide (x ≤ y)))
    | .Greater => some (.Boolean (decide (x > y)))
    | .GreaterEqual => some (.Boolean (decide (x ≥ y)))
  | .String _, _ => some (concat lv rv)
  | .Number _, .String _ => some (concat lv rv)
  | _, _ => none

/-! ## Concrete inputs used by the theorems -/

/-- A fresh interpreter state: empty symbol table and console. -/
def st0 : InterpState := ⟨[], [], []⟩

/-- The token sequence of `num = 10 + 5 * 2` (claim C1, and the
`nested_binary_assign` unit test of `src/parser.rs`). -/
def c1toks : List Token :=
  [mkTok (.Ident "num"), mkTok (.Symbol .Equals), mkTok (.Number 10),
   mkTok (.Symbol .Plus), mkTok (.Number 5), mkTok (.Symbol .Multiply),
   mkTok (.Number 2)]

/-- The token sequence of an if-statement whose then-slot holds an
identifier token named `s` (claim C5): `if 1 > 0 <s> endif`. -/
def c5toks (s : String) : List Token :=
  [mkTok (.Keyword .If), mkTok (.Number 1), mkTok (.Symbol .Greater),
   mkTok (.Number 0), mkTok (.Ident s), mkTok (.Keyword .EndIf)]

/-! ## Helper lemmas -/

theorem argsOKList_append (xs : List Node) (n : Node) :
    argsOKList (xs ++ [n]) = (argsOKList xs && argsOK n) := by
  induction xs with
  | nil => simp [argsOKList]
  | cons x xs ih => simp [argsOKList, ih, Bool.and_assoc]

theorem get_variable_none (t : SymbolTable) (i : String)
    (h : ∀ p ∈ t, p.1 ≠ i) : get_variable t i = none := by
  induction t with
  | nil => rfl
  | cons p t ih =>
    have hp : (p.1 == i) = false := by
      simpa using h p (List.mem_cons_self p t)
    simp only [get_variable, List.find?]
    rw [hp]
    have := ih (fun q hq => h q (List.mem_cons_of_mem p hq))
    simpa [get_variable] using this

theorem run_expr_not_binary (fuel : Nat) (st : InterpState) (e : Node)
    (h : ∀ l op r, e ≠ .BinaryExpr l op r) :
    run_expr fuel st e = none := by
  cases fuel with
  | zero => rfl
  | succ fuel =>
    cases e with
    | BinaryExpr l op r => exact absurd rfl (h l op r)
    | _ => rfl

theorem utf8Size_ascii (c : Char) (h : c.toNat < 128) : c.utf8Size = 1 := by
  unfold Char.utf8Size
  exact if_pos (Nat.le_of_lt_succ h)

theorem utf8Len_ascii (l : List Char) (h : ∀ x ∈ l, x.toNat < 128) :
    utf8Len l = l.length := by
  induction l with
  | nil => rfl
  | cons c l ih =>
    have hc := h c (List.mem_cons_self c l)
    have hl := fun x hx => h x (List.mem_cons_of_mem c hx)
    simp only [utf8Len, List.map_cons, List.sum_cons] at *
    rw [utf8Size_ascii c hc, ih hl]
    simp [Nat.add_comm]

theorem takeStr_split (cs : List Char) : (takeStr cs).1 ++ (takeStr cs).2 = cs := by
  induction cs with
  | nil => rfl
  | cons c cs ih =>
    simp only [takeStr]
    split
    · simp
    · simpa using ih

theorem takeDigits_split (cs : List Char) :
    (takeDigits cs).1 ++ (takeDigits cs).2 = cs := by
  induction cs with
  | nil => rfl
  | cons c cs ih =>
    simp only [takeDigits]
    split
    · simpa using ih
    · simp

theorem takeIdentChars_split (cs : List Char) :
    (takeIdentChars cs).1 ++ (takeIdentChars cs).2 = cs := by
  induction cs with
  | nil => rfl
  | cons c cs ih =>
    simp only [takeIdentChars]
    split
    · simpa using ih
    · simp

theorem isSymbolStart_cases (c : Char) (hc : isSymbolStart c = true) :
    c = '=' ∨ c = '<' ∨ c = '>' ∨ c = '+' ∨ c = '-' ∨ c = '*' ∨ c = '/' ∨ c = '%' := by
  simp only [isSymbolStart, Bool.or_eq_true, decide_eq_true_eq] at hc
  tauto

theorem some_pair_len {α : Type} {k0 k : α} {n0 len : Nat}
    (h : some (k0, n0) = some (k, len)) : len = n0 := by
  injection h with h1
  injection h1 with _ h2
  omega

theorem symbolTok_eq_len (c : Char) (hc : isSymbolStart c = true)
    (k : SymbolKind) (len : Nat)
    (h : symbolTok c '=' = some (k, len)) : len = 2 := by
  rcases isSymbolStart_cases c hc with rfl | rfl | rfl | rfl | rfl | rfl | rfl | rfl
  · exact some_pair_len ((rfl : symbolTok '=' '=' = some (.DoubleEquals, 2)).symm.trans h)
  · exact some_pair_len ((rfl : symbolTok '<' '=' = some (.LessEquals, 2)).symm.trans h)
  · exact some_pair_len ((rfl : symbolTok '>' '=' = some (.GreaterEquals, 2)).symm.trans h)
  · exact some_pair_len ((rfl : symbolTok '+' '=' = some (.PlusEqual, 2)).symm.trans h)
  · exact some_pair_len ((rfl : symbolTok '-' '=' = some (.MinusEqual, 2)).symm.trans h)
  · exact Option.noConfusion
      ((rfl : symbolTok '*' '=' = (none : Option (SymbolKind × Nat))).symm.trans h)
  · exact Option.noConfusion
      ((rfl : symbolTok '/' '=' = (none : Option (SymbolKind × Nat))).symm.trans h)
  · exact Option.noConfusion
      ((rfl : symbolTok '%' '=' = (none : Option (SymbolKind × Nat))).symm.trans h)

theorem symbolTok_space_len (c : Char) (hc : isSymbolStart c = true)
    (k : SymbolKind) (len : Nat)
    (h : symbolTok c ' ' = some (k, len)) : len = 1 := by
  rcases isSymbolStart_cases c hc with rfl | rfl | rfl | rfl | rfl | rfl | rfl | rfl
  · exact some_pair_len ((rfl : symbolTok '=' ' ' = some (.Equals, 1)).symm.trans h)
  · exact some_pair_len ((rfl : symbolTok '<' ' ' = some (.Less, 1)).symm.trans h)
  · exact some_pair_len ((rfl : symbolTok '>' ' ' = some (.Greater, 1)).symm.trans h)
  · exact some_pair_len ((rfl : symbolTok '+' ' ' = some (.Plus, 1)).symm.trans h)
  · exact some_pair_len ((rfl : symbolTok '-' ' ' = some (.Minus, 1)).symm.trans h)
  · exact some_pair_len ((rfl : symbolTok '*' ' ' = some (.Multiply, 1)).symm.trans h)
  · exact some_pair_len ((rfl : symbolTok '/' ' ' = some (.Divide, 1)).symm.trans h)
  · exact some_pair_len ((rfl : symbolTok '%' ' ' = some (.Mod, 1)).symm.trans h)

theorem keywordOf_len (s : String) (k : KeywordKind) (len : Nat)
    (h : keywordOf s = some (k, len)) : len = s.data.length := by
  unfold keywordOf at h
  split at h <;> simp_all

/-! Branch-selection lemmas: which arm of the `Lexer::lex` match fires
for a character of each class. -/

theorem lexStep_newline (og : String) (c : Char) (cs : List Char) (p : Position)
    (h : c = '\n' ∨ c = '\r') : lexStep og c cs p = .skip cs ⟨p.line + 1, 0⟩ := by
  rcases h with rfl | rfl <;> rfl

theorem lexStep_ws (og : String) (c : Char) (cs : List Char) (p : Position)
    (h : c = '\x00' ∨ c = ' ') : lexStep og c cs p = .skip cs ⟨p.line, p.col + 1⟩ := by
  rcases h with rfl | rfl <;> rfl

theorem lexStep_symbol (og : String) (c : Char) (cs : List Char) (p : Position)
    (h : isSymbolStart c = true) :
    lexStep og c cs p = lexSymbol c cs ⟨p.line, p.col + 1⟩ := by
  rcases isSymbolStart_cases c h with rfl | rfl | rfl | rfl | rfl | rfl | rfl | rfl <;> rfl

theorem lexStep_string (og : String) (cs : List Char) (p : Position) :
    lexStep og '"' cs p = lexString cs ⟨p.line, p.col + 1⟩ := rfl

theorem lexStep_numeric (og : String) (c : Char) (cs : List Char) (p : Position)
    (h1 : ¬(c = '\n' ∨ c = '\r')) (h2 : ¬(c = '\x00' ∨ c = ' '))
    (h3 : ¬(isSymbolStart c = true)) (h4 : ¬(c = '(')) (h5 : ¬(c = ')'))
    (h6 : ¬(c = '[')) (h7 : ¬(c = ']')) (h8 : ¬(c = '.')) (h9 : ¬(c = '"'))
    (h10 : c.isDigit = true) :
    lexStep og c cs p = lexNumeric c cs ⟨p.line, p.col + 1⟩ := by
  unfold lexStep
  rw [if_neg h1, if_neg h2, if_neg h3, if_neg h4, if_neg h5, if_neg h6,
    if_neg h7, if_neg h8, if_neg h9, if_pos h10]

theorem lexStep_identk (og : String) (c : Char) (cs : List Char) (p : Position)
    (h1 : ¬(c = '\n' ∨ c = '\r')) (h2 : ¬(c = '\x00' ∨ c = ' '))
    (h3 : ¬(isSymbolStart c = true)) (h4 : ¬(c = '(')) (h5 : ¬(c = ')'))
    (h6 : ¬(c = '[')) (h7 : ¬(c = ']')) (h8 : ¬(c = '.')) (h9 : ¬(c = '"'))
    (h10 : ¬(c.isDigit = true)) (h11 : c.isAlpha = true ∨ c = '_') :
    lexStep og c cs p = lexIdentOrKeyword c cs ⟨p.line, p.col + 1⟩ := by
  unfold lexStep
  rw [if_neg h1, if_neg h2, if_neg h3, if_neg h4, if_neg h5, if_neg h6,
    if_neg h7, if_neg h8, if_neg h9, if_neg h10, if_pos h11]

theorem lexStep_err (og : String) (c : Char) (cs : List Char) (p : Position)
    (h1 : ¬(c = '\n' ∨ c = '\r')) (h2 : ¬(c = '\x00' ∨ c = ' '))
    (h3 : ¬(isSymbolStart c = true)) (h4 : ¬(c = '(')) (h5 : ¬(c = ')'))
    (h6 : ¬(c = '[')) (h7 : ¬(c = ']')) (h8 : ¬(c = '.')) (h9 : ¬(c = '"'))
    (h10 : ¬(c.isDigit = true)) (h11 : ¬(c.isAlpha = true ∨ c = '_')) :
    lexStep og c cs p = .err (.UnrecognisedCharacter c ⟨p.line, p.col + 1⟩ og) := by
  unfold lexStep
  rw [if_neg h1, if_neg h2, if_neg h3, if_neg h4, if_neg h5, if_neg h6,
    if_neg h7, if_neg h8, if_neg h9, if_neg h10, if_neg h11]

/-! Per-branch length lemmas for claim C8. -/

theorem lexSymbol_len (c : Char) (cs : List Char) (p1 : Position)
    (t : Token) (rest : List Char) (p2 : Position)
    (hc : isSymbolStart c = true)
    (h : lexSymbol c cs p1 = .tok t rest p2) :
    t.len + rest.length = cs.length + 1 := by
  unfold lexSymbol at h
  split at h
  · split at h
    · rename_i k len heq2
      injection h with ht hr hp
      have hl2 : t.len = len := by rw [← ht]
      have h2 := symbolTok_eq_len c hc k len heq2
      subst hr
      simp only [List.length_cons]
      omega
    · exact StepRes.noConfusion h
  · split at h
    · rename_i k len heq2
      injection h with ht hr hp
      have hl2 : t.len = len := by rw [← ht]
      have h2 := symbolTok_space_len c hc k len heq2
      subst hr
      omega
    · exact StepRes.noConfusion h

theorem lexString_len (cs : List Char) (p1 : Position)
    (t : Token) (rest : List Char) (p2 : Position)
    (hA : ∀ x ∈ cs, x.toNat < 128)
    (h : lexString cs p1 = .tok t rest p2) :
    t.len + rest.length = cs.length + 1 := by
  unfold lexString at h
  split at h
  · exact StepRes.noConfusion h
  · rename_i x rest' heq
    injection h with ht hr hp
    subst ht
    subst hr
    have hsplit := takeStr_split cs
    have hmem : ∀ y ∈ (takeStr cs).1, y.toNat < 128 := by
      intro y hy
      exact hA y (hsplit ▸ List.mem_append_left _ hy)
    have hlen : utf8Len (takeStr cs).1 = (takeStr cs).1.length := utf8Len_ascii _ hmem
    have hlens : (takeStr cs).1.length + (takeStr cs).2.length = cs.length := by
      have := congrArg List.length hsplit
      simpa using this
    rw [heq] at hlens
    simp only [List.length_cons] at hlens
    show utf8Len (takeStr cs).1 + 2 + rest'.length = cs.length + 1
    omega

theorem lexNumeric_len (c : Char) (cs : List Char) (p1 : Position)
    (t : Token) (rest : List Char) (p2 : Position)
    (hA : ∀ x ∈ c :: cs, x.toNat < 128)
    (h : lexNumeric c cs p1 = .tok t rest p2) :
    t.len + rest.length = cs.length + 1 := by
  unfold lexNumeric at h
  split at h
  · rename_i n heq
    injection h with ht hr hp
    subst ht
    subst hr
    have hsplit := takeDigits_split cs
    have hmem : ∀ y ∈ c :: (takeDigits cs).1, y.toNat < 128 := by
      intro y hy
      rcases List.mem_cons.mp hy with rfl | hy2
      · exact hA y (List.mem_cons_self _ _)
      · exact hA y (List.mem_cons_of_mem _ (hsplit ▸ List.mem_append_left _ hy2))
    have hlen : utf8Len (c :: (takeDigits cs).1) = (takeDigits cs).1.length + 1 := by
      rw [utf8Len_ascii _ hmem]
      simp [Nat.add_comm]
    have hlens : (takeDigits cs).1.length + (takeDigits cs).2.length = cs.length := by
      have := congrArg List.length hsplit
      simpa using this
    show utf8Len (c :: (takeDigits cs).1) + (takeDigits cs).2.length = cs.length + 1
    omega
  · exact StepRes.noConfusion h

theorem lexIdentOrKeyword_len (c : Char) (cs : List Char) (p1 : Position)
    (t : Token) (rest : List Char) (p2 : Position)
    (hA : ∀ x ∈ c :: cs, x.toNat < 128)
    (h : lexIdentOrKeyword c cs p1 = .tok t rest p2) :
    t.len + rest.length = cs.length + 1 := by
  have hsplit := takeIdentChars_split cs
  have hmem : ∀ y ∈ c :: (takeIdentChars cs).1, y.toNat < 128 := by
    intro y hy
    rcases List.mem_cons.mp hy with rfl | hy2
    · exact hA y (List.mem_cons_self _ _)
    · exact hA y (List.mem_cons_of_mem _ (hsplit ▸ List.mem_append_left _ hy2))
  have hlen : utf8Len (c :: (takeIdentChars cs).1) = (takeIdentChars cs).1.length + 1 := by
    rw [utf8Len_ascii _ hmem]
    simp [Nat.add_comm]
  have hlens : (takeIdentChars cs).1.length + (takeIdentChars cs).2.length = cs.length := by
    have := congrArg List.length hsplit
    simpa using this
  unfold lexIdentOrKeyword at h
  split at h
  · rename_i k len heq
    injection h with ht hr hp
    subst ht
    subst hr
    have h2 : len = (c :: (takeIdentChars cs).1).length := keywordOf_len _ k len heq
    simp only [List.length_cons] at h2
    show len + (takeIdentChars cs).2.length = cs.length + 1
    omega
  · injection h with ht hr hp
    subst ht
    subst hr
    show utf8Len (c :: (takeIdentChars cs).1) + (takeIdentChars cs).2.length = cs.length + 1
    omega

theorem step_ok {nodes : List Node} {n : Node}
    (h1 : argsOKList nodes = true) (h2 : argsOK n = true) :
    argsOKList (nodes ++ [n]) = true := by
  rw [argsOKList_append, h1, h2]
  rfl

set_option maxHeartbeats 4000000 in
theorem parser_argsOK_aux : ∀ fuel : Nat,
    (∀ input ts nodes res rest, parse_block input fuel ts nodes = .ok (res, rest) →
      argsOKList nodes = true → argsOK res = true) ∧
    (∀ input ts n rest, parse_if input fuel ts = .ok (n, rest) → argsOK n = true) ∧
    (∀ input ts n rest, parse_while input fuel ts = .ok (n, rest) → argsOK n = true) ∧
    (∀ input ts n rest, parse_func_call input fuel ts = .ok (n, rest) → argsOK n = true) ∧
    (∀ input ts n rest, parse_arg input fuel ts = .ok (n, rest) → argsOK n = true) ∧
    (∀ input ts n rest, parse_assign input fuel ts = .ok (n, rest) → argsOK n = true) ∧
    (∀ input ts n rest, parse_array_assign_ind input fuel ts = .ok (n, rest) →
      argsOK n = true) ∧
    (∀ input ts n rest, parse_array input fuel ts = .ok (n, rest) → argsOK n = true) ∧
    (∀ input ts n rest, parse_dot_expr input fuel ts = .ok (n, rest) → argsOK n = true) ∧
    (∀ input ts n rest, parse_expr input fuel ts = .ok (n, rest) → argsOK n = true) ∧
    (∀ input ts n rest, parse_term input fuel ts = .ok (n, rest) → argsOK n = true) ∧
    (∀ input ts n rest, parse_factor input fuel ts = .ok (n, rest) → argsOK n = true) ∧
    (∀ input ts n rest, parse_array_ref input fuel ts = .ok (n, rest) → argsOK n = true) := by
  intro fuel
  induction fuel with
  | zero =>
    exact ⟨fun _ _ _ _ _ h _ => PRes.noConfusion h,
      fun _ _ _ _ h => PRes.noConfusion h, fun _ _ _ _ h => PRes.noConfusion h,
      fun _ _ _ _ h => PRes.noConfusion h, fun _ _ _ _ h => PRes.noConfusion h,
      fun _ _ _ _ h => PRes.noConfusion h, fun _ _ _ _ h => PRes.noConfusion h,
      fun _ _ _ _ h => PRes.noConfusion h, fun _ _ _ _ h => PRes.noConfusion h,
      fun _ _ _ _ h => PRes.noConfusion h, fun _ _ _ _ h => PRes.noConfusion h,
      fun _ _ _ _ h => PRes.noConfusion h, fun _ _ _ _ h => PRes.noConfusion h⟩
  | succ fuel ih =>
    obtain ⟨ihb, ihif, ihw, ihc, iharg, ihas, ihai, ihar, ihd, ihe, iht, ihf, ihref⟩ := ih
    refine ⟨?_, ?_, ?_, ?_, ?_, ?_, ?_, ?_, ?_, ?_, ?_, ?_, ?_⟩
    · intro input ts nodes res rest h hacc
      cases ts with
      | nil =>
        injection h with h1
        injection h1 with hres hrest
        subst hres
        simpa [argsOK] using hacc
      | cons t ts2 =>
        simp only [parse_block] at h
        repeat' split at h
        any_goals exact PRes.noConfusion h
        all_goals first
          | (injection h with h1
             injection h1 with hres hrest
             subst hres
             simpa [argsOK] using hacc)
          | exact ihb _ _ _ _ _ h (step_ok hacc (ihas _ _ _ _ (by assumption)))
          | exact ihb _ _ _ _ _ h (step_ok hacc (ihc _ _ _ _ (by assumption)))
          | exact ihb _ _ _ _ _ h (step_ok hacc (ihai _ _ _ _ (by assumption)))
          | exact ihb _ _ _ _ _ h (step_ok hacc (ihd _ _ _ _ (by assumption)))
          | exact ihb _ _ _ _ _ h (step_ok hacc (ihar _ _ _ _ (by assumption)))
          | exact ihb _ _ _ _ _ h (step_ok hacc (ihif _ _ _ _ (by assumption)))
          | exact ihb _ _ _ _ _ h (step_ok hacc (ihw _ _ _ _ (by assumption)))
    · intro input ts n rest h
      simp only [parse_if] at h
      repeat' split at h
      any_goals exact PRes.noConfusion h
      all_goals first
        | exact ihc _ _ _ _ h
        | exact ihref _ _ _ _ h
        | exact ihd _ _ _ _ h
        | exact ihe _ _ _ _ h
        | (injection h with h1
           injection h1 with hres hrest
           subst hres
           first
           | exact iht _ _ _ _ (by assumption)
           | exact ihf _ _ _ _ (by assumption)
           | exact ihe _ _ _ _ (by assumption)
           | (simp only [argsOK, argsOKList, Bool.and_eq_true]
              repeat' apply And.intro
              all_goals first
                | rfl
                | decide
                | exact ihe _ _ _ _ (by assumption)
                | exact iht _ _ _ _ (by assumption)
                | exact ihf _ _ _ _ (by assumption)
                | exact iharg _ _ _ _ (by assumption)
                | exact ihb _ _ [] _ _ (by assumption) rfl))
    · intro input ts n rest h
      simp only [parse_while] at h
      repeat' split at h
      any_goals exact PRes.noConfusion h
      all_goals first
        | exact ihc _ _ _ _ h
        | exact ihref _ _ _ _ h
        | exact ihd _ _ _ _ h
        | exact ihe _ _ _ _ h
        | (injection h with h1
           injection h1 with hres hrest
           subst hres
           first
           | exact iht _ _ _ _ (by assumption)
           | exact ihf _ _ _ _ (by assumption)
           | exact ihe _ _ _ _ (by assumption)
           | (simp only [argsOK, argsOKList, Bool.and_eq_true]
              repeat' apply And.intro
              all_goals first
                | rfl
                | decide
                | exact ihe _ _ _ _ (by assumption)
                | exact iht _ _ _ _ (by assumption)
                | exact ihf _ _ _ _ (by assumption)
                | exact iharg _ _ _ _ (by assumption)
                | exact ihb _ _ [] _ _ (by assumption) rfl))
    · intro input ts n rest h
      simp only [parse_func_call] at h
      repeat' split at h
      any_goals exact PRes.noConfusion h
      all_goals first
        | exact ihc _ _ _ _ h
        | exact ihref _ _ _ _ h
        | exact ihd _ _ _ _ h
        | exact ihe _ _ _ _ h
        | (injection h with h1
           injection h1 with hres hrest
           subst hres
           first
           | exact iht _ _ _ _ (by assumption)
           | exact ihf _ _ _ _ (by assumption)
           | exact ihe _ _ _ _ (by assumption)
           | (simp only [argsOK, argsOKList, Bool.and_eq_true]
              repeat' apply And.intro
              all_goals first
                | rfl
                | decide
                | exact ihe _ _ _ _ (by assumption)
                | exact iht _ _ _ _ (by assumption)
                | exact ihf _ _ _ _ (by assumption)
                | exact iharg _ _ _ _ (by assumption)
                | exact ihb _ _ [] _ _ (by assumption) rfl))
    · intro input ts n rest h
      simp only [parse_arg] at h
      repeat' split at h
      any_goals exact PRes.noConfusion h
      all_goals first
        | exact ihc _ _ _ _ h
        | exact ihref _ _ _ _ h
        | exact ihd _ _ _ _ h
        | exact ihe _ _ _ _ h
        | (injection h with h1
           injection h1 with hres hrest
           subst hres
           first
           | exact iht _ _ _ _ (by assumption)
           | exact ihf _ _ _ _ (by assumption)
           | exact ihe _ _ _ _ (by assumption)
           | (simp only [argsOK, argsOKList, Bool.and_eq_true]
              repeat' apply And.intro
              all_goals first
                | rfl
                | decide
                | exact ihe _ _ _ _ (by assumption)
                | exact iht _ _ _ _ (by assumption)
                | exact ihf _ _ _ _ (by assumption)
                | exact iharg _ _ _ _ (by assumption)
                | exact ihb _ _ [] _ _ (by assumption) rfl))
    · intro input ts n rest h
      simp only [parse_assign] at h
      repeat' split at h
      any_goals exact PRes.noConfusion h
      all_goals first
        | exact ihc _ _ _ _ h
        | exact ihref _ _ _ _ h
        | exact ihd _ _ _ _ h
        | exact ihe _ _ _ _ h
        | (injection h with h1
           injection h1 with hres hrest
           subst hres
           first
           | exact iht _ _ _ _ (by assumption)
           | exact ihf _ _ _ _ (by assumption)
           | exact ihe _ _ _ _ (by assumption)
           | (simp only [argsOK, argsOKList, Bool.and_eq_true]
              repeat' apply And.intro
              all_goals first
                | rfl
                | decide
                | exact ihe _ _ _ _ (by assumption)
                | exact iht _ _ _ _ (by assumption)
                | exact ihf _ _ _ _ (by assumption)
                | exact iharg _ _ _ _ (by assumption)
                | exact ihb _ _ [] _ _ (by assumption) rfl))
    · intro input ts n rest h
      simp only [parse_array_assign_ind] at h
      repeat' split at h
      any_goals exact PRes.noConfusion h
      all_goals first
        | exact ihc _ _ _ _ h
        | exact ihref _ _ _ _ h
        | exact ihd _ _ _ _ h
        | exact ihe _ _ _ _ h
        | (injection h with h1
           injection h1 with hres hrest
           subst hres
           first
           | exact iht _ _ _ _ (by assumption)
           | exact ihf _ _ _ _ (by assumption)
           | exact ihe _ _ _ _ (by assumption)
           | (simp only [argsOK, argsOKList, Bool.and_eq_true]
              repeat' apply And.intro
              all_goals first
                | rfl
                | decide
                | exact ihe _ _ _ _ (by assumption)
                | exact iht _ _ _ _ (by assumption)
                | exact ihf _ _ _ _ (by assumption)
                | exact iharg _ _ _ _ (by assumption)
                | exact ihb _ _ [] _ _ (by assumption) rfl))
    · intro input ts n rest h
      simp only [parse_array] at h
      repeat' split at h
      any_goals exact PRes.noConfusion h
      all_goals first
        | exact ihc _ _ _ _ h
        | exact ihref _ _ _ _ h
        | exact ihd _ _ _ _ h
        | exact ihe _ _ _ _ h
        | (injection h with h1
           injection h1 with hres hrest
           subst hres
           first
           | exact iht _ _ _ _ (by assumption)
           | exact ihf _ _ _ _ (by assumption)
           | exact ihe _ _ _ _ (by assumption)
           | (simp only [argsOK, argsOKList, Bool.and_eq_true]
              repeat' apply And.intro
              all_goals first
                | rfl
                | decide
                | exact ihe _ _ _ _ (by assumption)
                | exact iht _ _ _ _ (by assumption)
                | exact ihf _ _ _ _ (by assumption)
                | exact iharg _ _ _ _ (by assumption)
                | exact ihb _ _ [] _ _ (by assumption) rfl))
    · intro input ts n rest h
      simp only [parse_dot_expr] at h
      repeat' split at h
      any_goals exact PRes.noConfusion h
      all_goals first
        | exact ihc _ _ _ _ h
        | exact ihref _ _ _ _ h
        | exact ihd _ _ _ _ h
        | exact ihe _ _ _ _ h
        | (injection h with h1
           injection h1 with hres hrest
           subst hres
           first
           | exact iht _ _ _ _ (by assumption)
           | exact ihf _ _ _ _ (by assumption)
           | exact ihe _ _ _ _ (by assumption)
           | (simp only [argsOK, argsOKList, Bool.and_eq_true]
              repeat' apply And.intro
              all_goals first
                | rfl
                | decide
                | exact ihe _ _ _ _ (by assumption)
                | exact iht _ _ _ _ (by assumption)
                | exact ihf _ _ _ _ (by assumption)
                | exact iharg _ _ _ _ (by assumption)
                | exact ihb _ _ [] _ _ (by assumption) rfl))
    · intro input ts n rest h
      simp only [parse_expr] at h
      repeat' split at h
      any_goals exact PRes.noConfusion h
      all_goals first
        | exact ihc _ _ _ _ h
        | exact ihref _ _ _ _ h
        | exact ihd _ _ _ _ h
        | exact ihe _ _ _ _ h
        | (injection h with h1
           injection h1 with hres hrest
           subst hres
           first
           | exact iht _ _ _ _ (by assumption)
           | exact ihf _ _ _ _ (by assumption)
           | exact ihe _ _ _ _ (by assumption)
           | (simp only [argsOK, argsOKList, Bool.and_eq_true]
              repeat' apply And.intro
              all_goals first
                | rfl
                | decide
                | exact ihe _ _ _ _ (by assumption)
                | exact iht _ _ _ _ (by assumption)
                | exact ihf _ _ _ _ (by assumption)
                | exact iharg _ _ _ _ (by assumption)
                | exact ihb _ _ [] _ _ (by assumption) rfl))
    · intro input ts n rest h
      simp only [parse_term] at h
      repeat' split at h
      any_goals exact PRes.noConfusion h
      all_goals first
        | exact ihc _ _ _ _ h
        | exact ihref _ _ _ _ h
        | exact ihd _ _ _ _ h
        | exact ihe _ _ _ _ h
        | (injection h with h1
           injection h1 with hres hrest
           subst hres
           first
           | exact iht _ _ _ _ (by assumption)
           | exact ihf _ _ _ _ (by assumption)
           | exact ihe _ _ _ _ (by assumption)
           | (simp only [argsOK, argsOKList, Bool.and_eq_true]
              repeat' apply And.intro
              all_goals first
                | rfl
                | decide
                | exact ihe _ _ _ _ (by assumption)
                | exact iht _ _ _ _ (by assumption)
                | exact ihf _ _ _ _ (by assumption)
                | exact iharg _ _ _ _ (by assumption)
                | exact ihb _ _ [] _ _ (by assumption) rfl))
    · intro input ts n rest h
      simp only [parse_factor] at h
      repeat' split at h
      any_goals exact PRes.noConfusion h
      all_goals first
        | exact ihc _ _ _ _ h
        | exact ihref _ _ _ _ h
        | exact ihd _ _ _ _ h
        | exact ihe _ _ _ _ h
        | (injection h with h1
           injection h1 with hres hrest
           subst hres
           first
           | exact iht _ _ _ _ (by assumption)
           | exact ihf _ _ _ _ (by assumption)
           | exact ihe _ _ _ _ (by assumption)
           | (simp only [argsOK, argsOKList, Bool.and_eq_true]
              repeat' apply And.intro
              all_goals first
                | rfl
                | decide
                | exact ihe _ _ _ _ (by assumption)
                | exact iht _ _ _ _ (by assumption)
                | exact ihf _ _ _ _ (by assumption)
                | exact iharg _ _ _ _ (by assumption)
                | exact ihb _ _ [] _ _ (by assumption) rfl))
    · intro input ts n rest h
      simp only [parse_array_ref] at h
      repeat' split at h
      any_goals exact PRes.noConfusion h
      all_goals first
        | exact ihc _ _ _ _ h
        | exact ihref _ _ _ _ h
        | exact ihd _ _ _ _ h
        | exact ihe _ _ _ _ h
        | (injection h with h1
           injection h1 with hres hrest
           subst hres
           first
           | exact iht _ _ _ _ (by assumption)
           | exact ihf _ _ _ _ (by assumption)
           | exact ihe _ _ _ _ (by assumption)
           | (simp only [argsOK, argsOKList, Bool.and_eq_true]
              repeat' apply And.intro
              all_goals first
                | rfl
                | decide
                | exact ihe _ _ _ _ (by assumption)
                | exact iht _ _ _ _ (by assumption)
                | exact ihf _ _ _ _ (by assumption)
                | exact iharg _ _ _ _ (by assumption)
                | exact ihb _ _ [] _ _ (by assumption) rfl))

theorem evaluate_condition_not_binary (fuel : Nat) (st : InterpState) (e : Node)
    (h : ∀ l op r, e ≠ .BinaryExpr l op r) :
    evaluate_condition fuel st e = none := by
  cases fuel with
  | zero => rfl
  | succ fuel => simp [evaluate_condition, run_expr_not_binary fuel st e h]

theorem takeStr_no_terminator (cs : List Char)
    (hq : '"' ∉ cs) (hz : '\x00' ∉ cs) : takeStr cs = (cs, []) := by
  induction cs with
  | nil => rfl
  | cons c cs ih =>
    have hc : ¬(c = '"' ∨ c = '\x00') := by
      rintro (rfl | rfl)
      · exact hq (List.mem_cons_self _ _)
      · exact hz (List.mem_cons_self _ _)
    have := ih (fun h => hq (List.mem_cons_of_mem _ h))
      (fun h => hz (List.mem_cons_of_mem _ h))
    simp [takeStr, hc, this]

/-! ## Claim theorems -/

/-- C1: parsing the token sequence of `num = 10 + 5 * 2` produces the
right-leaning tree `Block([Assign num (BinaryExpr (Primary 10) Plus
(BinaryExpr (Primary 5) Multiply (Primary 2)))])`; and in general,
whenever `parse_expr` (resp. `parse_term`) finds an operator after its
left operand, the right operand is the result of the full top-level
`parse_expr`, not of `parse_term`/`parse_factor`. -/
theorem c1_right_leaning_grouping :
    (parse "" 20 c1toks =
      .ok (.Block [.Assign "num"
        (.BinaryExpr (.Primary (.Number 10)) .Plus
          (.BinaryExpr (.Primary (.Number 5)) .Multiply (.Primary (.Number 2))))], [])) ∧
    (∀ input fuel ts left tok rest op right ts2,
      parse_term input fuel ts = .ok (left, tok :: rest) →
      exprOp tok.kind = some op →
      parse_expr input fuel rest = .ok (right, ts2) →
      parse_expr input (fuel + 1) ts = .ok (.BinaryExpr left op right, ts2)) ∧
    (∀ input fuel ts left tok rest op right ts2,
      parse_factor input fuel ts = .ok (left, tok :: rest) →
      termOp tok.kind = some op →
      parse_expr input fuel rest = .ok (right, ts2) →
      parse_term input (fuel + 1) ts = .ok (.BinaryExpr left op right, ts2)) := by
  refine ⟨rfl, ?_, ?_⟩
  · intro input fuel ts left tok rest op right ts2 h1 h2 h3
    simp [parse_expr, h1, h2, h3]
  · intro input fuel ts left tok rest op right ts2 h1 h2 h3
    simp [parse_term, h1, h2, h3]

/-- Witness for C1: the general right-recursion conjuncts instantiated at
the concrete streams `10 + 2` and `10 * 2`. -/
theorem c1_witness :
    (parse_expr "" 4 [mkTok (.Number 10), mkTok (.Symbol .Plus), mkTok (.Number 2)] =
      .ok (.BinaryExpr (.Primary (.Number 10)) .Plus (.Primary (.Number 2)), [])) ∧
    (parse_term "" 4 [mkTok (.Number 10), mkTok (.Symbol .Multiply), mkTok (.Number 2)] =
      .ok (.BinaryExpr (.Primary (.Number 10)) .Multiply (.Primary (.Number 2)), [])) :=
  ⟨c1_right_leaning_grouping.2.1 "" 3 _ _ _ _ .Plus _ _ rfl rfl rfl,
   c1_right_leaning_grouping.2.2 "" 3 _ _ _ _ .Multiply _ _ rfl rfl rfl⟩

/-- Counterexample to C2 as stated: a `Boolean` left operand with a
`String` right operand is a fatal runtime error, not a concatenation
(the `run_expr` dispatch only concatenates when the left value is a
`String`, or is a `Number` with a `String` on the right); and `5 / 0`
on two `Number`s is a fatal runtime error, not a `Number`. -/
theorem c2_counterexample :
    run_expr 2 st0 (.BinaryExpr (.Primary (.Boolean true)) .Plus (.Primary (.String "x"))) =
      none ∧
    run_expr 2 st0 (.BinaryExpr (.Primary (.Number 5)) .Divide (.Primary (.Number 0))) =
      none :=
  ⟨rfl, rfl⟩

/-- C2 (amended): for every evaluation of a `BinaryExpr` whose operands
evaluate to `lv` and `rv`, the result follows `binOpSpec`: two `Number`s
follow the arithmetic/comparison table (`+ - *` wrapping modulo `2^64`,
`/ %` fatal on a zero divisor), a `String` left operand — or a `Number`
left with a `String` right — concatenates the display forms regardless of
the operator, and every other combination (including `Boolean`/`Array`
on the left even with a `String` on the right) is a fatal runtime
error. -/
theorem c2_binary_dispatch (fuel : Nat) (st st1 st2 : InterpState)
    (l r : Node) (op : Op) (lv rv : Value)
    (hl : get_expr_val fuel st l = some (lv, st1))
    (hr : get_expr_val fuel st1 r = some (rv, st2)) :
    run_expr (fuel + 1) st (.BinaryExpr l op r) =
      (binOpSpec lv op rv).map (fun v => (v, st2)) := by
  simp only [run_expr, hl, hr]
  cases lv with
  | Number x =>
    cases rv with
    | Number y =>
      cases op <;> simp [binOpSpec] <;> split <;> simp
    | String s => simp [binOpSpec]
    | Boolean b => simp [binOpSpec]
    | Array vs => simp [binOpSpec]
  | String s => cases rv <;> simp [binOpSpec]
  | Boolean b => cases rv <;> simp [binOpSpec]
  | Array vs => cases rv <;> simp [binOpSpec]

/-- Witness for C2: the dispatch at `"a" + 1` concatenates displays. -/
theorem c2_witness :
    run_expr 2 st0 (.BinaryExpr (.Primary (.String "a")) .Plus (.Primary (.Number 1))) =
      some (.String "a1", st0) :=
  (c2_binary_dispatch 1 st0 st0 st0 (.Primary (.String "a")) (.Primary (.Number 1))
    .Plus (.String "a") (.Number 1) rfl rfl).trans rfl

/-- Counterexample to C3 as stated: lexing a source consisting of the
unterminated string literal `"a` does not complete without error — the
lexer panics (the unconditional `panic_pop` consuming the absent closing
quote fails on empty input). -/
theorem c3_counterexample : lex "\"a" = .panic := rfl

/-- C3 (amended): on a string literal whose remaining characters contain
neither a closing quote nor a NUL byte, the lexer's string loop consumes
them verbatim to end of input and then panics attempting to consume the
nonexistent closing quote (a fatal crash, not an error-free completion);
whereas when a literal NUL byte occurs before end of input, the loop
stops there (`peek_char() != '\0'`), the NUL is consumed as if it were
the closing quote, and lexing completes without error — e.g. the
unclosed `"a<NUL>` lexes to a single string token. -/
theorem c3_unterminated_string_panics :
    (∀ og cs p, '"' ∉ cs → '\x00' ∉ cs → lexStep og '"' cs p = .panic) ∧
    (lex "\"a\x00" = .ok [⟨⟨1, 0⟩, 3, .String "a"⟩]) := by
  constructor
  · intro og cs p hq hz
    have ht := takeStr_no_terminator cs hq hz
    show lexString cs ⟨p.line, p.col + 1⟩ = .panic
    unfold lexString
    rw [ht]
  · rfl

/-- Witness for C3: the unterminated literal `"a`. -/
theorem c3_witness : lexStep "\"a" '"' ['a'] ⟨1, 0⟩ = .panic :=
  c3_unterminated_string_panics.1 "\"a" ['a'] ⟨1, 0⟩ (by decide) (by decide)

/-- Counterexample to C4 as stated: lexing `*=` does not emit a
two-character symbol token — it panics in the `Lexer::symbol` fallback
arm (`"Invalid Dual Character: ..."`), since no `*=` symbol exists. -/
theorem c4_counterexample : lex "*=" = .panic := rfl

/-- C4 (amended): for the lookahead characters `= < > + -`, a following
`=` emits the corresponding two-character symbol consuming both
characters, and any other (or no) following character emits the
one-character symbol consuming only the first, never failing; but for
`* / %` followed by `=` the lexer panics (no corresponding two-character
symbol exists). -/
theorem c4_symbol_lookahead :
    (∀ og c rest p, (c = '=' ∨ c = '<' ∨ c = '>' ∨ c = '+' ∨ c = '-') →
      ∃ k, symbolTok c '=' = some (k, 2) ∧
        lexStep og c ('=' :: rest) p =
          .tok ⟨⟨p.line, p.col⟩, 2, .Symbol k⟩ rest ⟨p.line, p.col + 2⟩) ∧
    (∀ og c cs p, isSymbolStart c = true → (∀ cs', cs ≠ '=' :: cs') →
      ∃ k, symbolTok c ' ' = some (k, 1) ∧
        lexStep og c cs p = .tok ⟨⟨p.line, p.col⟩, 1, .Symbol k⟩ cs ⟨p.line, p.col + 1⟩) ∧
    (∀ og c rest p, (c = '*' ∨ c = '/' ∨ c = '%') →
      lexStep og c ('=' :: rest) p = .panic) := by
  refine ⟨?_, ?_, ?_⟩
  · intro og c rest p h
    rcases h with rfl | rfl | rfl | rfl | rfl <;> exact ⟨_, rfl, rfl⟩
  · intro og c cs p hc hne
    have hdis : c = '=' ∨ c = '<' ∨ c = '>' ∨ c = '+' ∨ c = '-' ∨ c = '*' ∨
        c = '/' ∨ c = '%' := by
      have := hc
      simp only [isSymbolStart, Bool.or_eq_true, decide_eq_true_eq] at this
      tauto
    cases cs with
    | nil =>
      rcases hdis with rfl | rfl | rfl | rfl | rfl | rfl | rfl | rfl <;>
        exact ⟨_, rfl, rfl⟩
    | cons c2 cs2 =>
      have h2 : ¬(c2 = '=') := fun h => hne cs2 (by rw [h])
      rcases hdis with rfl | rfl | rfl | rfl | rfl | rfl | rfl | rfl <;>
        refine ⟨_, rfl, ?_⟩ <;>
        (rw [lexStep_symbol _ _ _ _ (by decide)]
         unfold lexSymbol
         split
         · rename_i heq
           injection heq with hh _
           exact absurd hh h2
         · rfl)
  · intro og c rest p h
    rcases h with rfl | rfl | rfl <;> exact rfl

/-- Witness for C4: `==` gives `DoubleEquals` consuming both characters,
a lone `+` gives `Plus`, and `*=` panics. -/
theorem c4_witness :
    (∃ k, symbolTok '=' '=' = some (k, 2) ∧
      lexStep "" '=' ['='] ⟨1, 0⟩ = .tok ⟨⟨1, 0⟩, 2, .Symbol k⟩ [] ⟨1, 2⟩) ∧
    (∃ k, symbolTok '+' ' ' = some (k, 1) ∧
      lexStep "" '+' [] ⟨1, 0⟩ = .tok ⟨⟨1, 0⟩, 1, .Symbol k⟩ [] ⟨1, 1⟩) ∧
    (lexStep "" '*' ['='] ⟨1, 0⟩ = .panic) :=
  ⟨c4_symbol_lookahead.1 "" '=' [] ⟨1, 0⟩ (Or.inl rfl),
   c4_symbol_lookahead.2.1 "" '+' [] ⟨1, 0⟩ (by decide) (fun _ h => by simp at h),
   c4_symbol_lookahead.2.2 "" '*' [] ⟨1, 0⟩ (Or.inl rfl)⟩

/-- C5: the word `then` lexes as an identifier token (it is absent from
the lexer's keyword table), and the parser's if-statement consumes the
token in the then-slot unconditionally, so `if 1 > 0 <ident> endif`
parses successfully for an identifier of any name in that slot. -/
theorem c5_then_is_identifier :
    (lex "then" = .ok [⟨⟨1, 0⟩, 4, .Ident "then"⟩]) ∧
    (∀ s : String, parse "" 20 (c5toks s) =
      .ok (.Block [.IfExpr
        (.BinaryExpr (.Primary (.Number 1)) .Greater (.Primary (.Number 0)))
        (.Block []) (.Block [])], [])) :=
  ⟨rfl, fun _ => rfl⟩

/-- C6: `parse_block` returns the accumulated `Block` without consuming
the terminator when the statement-start token is `endif`, `endwhile` or
`else`; and returns `InvalidTokenInBlock` carrying that token and the
source text on every statement-start token that heads no statement rule
(string, number or symbol tokens, and the keywords `do`, `then`,
`break`). -/
theorem c6_block_termination :
    (∀ input fuel t ts nodes,
      (t.kind = .Keyword .EndIf ∨ t.kind = .Keyword .EndWhile ∨ t.kind = .Keyword .Else) →
      parse_block input (fuel + 1) (t :: ts) nodes = .ok (.Block nodes, t :: ts)) ∧
    (∀ input fuel t ts nodes,
      ((∃ s, t.kind = .String s) ∨ (∃ n, t.kind = .Number n) ∨
        (∃ s, t.kind = .Symbol s) ∨ t.kind = .Keyword .Do ∨
        t.kind = .Keyword .Then ∨ t.kind = .Keyword .Break) →
      parse_block input (fuel + 1) (t :: ts) nodes =
        .err (.InvalidTokenInBlock t input)) := by
  constructor
  · intro input fuel t ts nodes h
    rcases h with h | h | h <;> simp [parse_block, h]
  · intro input fuel t ts nodes h
    rcases h with ⟨s, h⟩ | ⟨n, h⟩ | ⟨s, h⟩ | h | h | h <;> simp [parse_block, h]

/-- Witness for C6: an `endif` terminator is left unconsumed, and a
number at statement start yields the structured error. -/
theorem c6_witness :
    (parse_block "src" 5 [mkTok (.Keyword .EndIf)] [] =
      .ok (.Block [], [mkTok (.Keyword .EndIf)])) ∧
    (parse_block "src" 5 [mkTok (.Number 3)] [] =
      .err (.InvalidTokenInBlock (mkTok (.Number 3)) "src")) :=
  ⟨c6_block_termination.1 "src" 4 _ _ _ (Or.inl rfl),
   c6_block_termination.2 "src" 4 _ _ _ (Or.inr (Or.inl ⟨3, rfl⟩))⟩

/-- C7: `assign_variable` always succeeds and overwrites — after
`assign(ident, v)`, `get(ident)` returns `v` whatever was bound before —
while `get_variable` on an unbound identifier is a fatal error (`none`,
the `.unwrap()` panic), as is evaluating a `VariableRef` to an unbound
identifier. -/
theorem c7_symbol_table_contract :
    (∀ t i v, get_variable (assign_variable t i v) i = some v) ∧
    (∀ t i, (∀ p ∈ t, p.1 ≠ i) → get_variable t i = none) ∧
    (∀ fuel st x, (∀ p ∈ st.symbols, p.1 ≠ x) →
      get_expr_val (fuel + 1) st (.VariableRef x) = none) := by
  refine ⟨?_, ?_, ?_⟩
  · intro t i v
    simp [get_variable, assign_variable, List.find?]
  · intro t i h
    exact get_variable_none t i h
  · intro fuel st x h
    simp [get_expr_val, get_variable_none st.symbols x h]

/-- Witness for C7: overwrite of an existing binding, and fatal lookups
of the unbound `y`. -/
theorem c7_witness :
    (get_variable (assign_variable [("x", .Number 1)] "x" (.Number 2)) "x" =
      some (.Number 2)) ∧
    (get_variable [("x", .Number 1)] "y" = none) ∧
    (get_expr_val 3 ⟨[("x", .Number 1)], [], []⟩ (.VariableRef "y") = none) :=
  ⟨c7_symbol_table_contract.1 [("x", .Number 1)] "x" (.Number 2),
   c7_symbol_table_contract.2.1 [("x", .Number 1)] "y" (by decide),
   c7_symbol_table_contract.2.2 2 ⟨[("x", .Number 1)], [], []⟩ "y" (by decide)⟩

/-- Counterexample to C8 as stated: lexing `aé` succeeds with a single
identifier token lexed from the entire 2-character source, but its `len`
is 3 — Rust `String::len()` counts UTF-8 bytes, not source characters
(`é` is 2 bytes). -/
theorem c8_counterexample :
    lex "aé" = .ok [⟨⟨1, 0⟩, 3, .Ident "aé"⟩] ∧
    "aé".data.length = 2 ∧ (3 : Nat) ≠ 2 :=
  ⟨rfl, rfl, by decide⟩

/-- C8 (amended): a token's `len` equals the UTF-8 byte length of the
source text it was lexed from (for a string literal including the two
quotes); when the characters are all ASCII (one byte each) this equals
the number of source characters consumed, stated here per lexer step:
the consumed count is `(c :: cs).length - rest.length`. -/
theorem c8_token_len_ascii (og : String) (c : Char) (cs : List Char) (p : Position)
    (t : Token) (rest : List Char) (p2 : Position)
    (hA : ∀ x ∈ c :: cs, x.toNat < 128)
    (h : lexStep og c cs p = .tok t rest p2) :
    t.len + rest.length = cs.length + 1 := by
  by_cases h1 : c = '\n' ∨ c = '\r'
  · rw [lexStep_newline og c cs p h1] at h
    exact StepRes.noConfusion h
  by_cases h2 : c = '\x00' ∨ c = ' '
  · rw [lexStep_ws og c cs p h2] at h
    exact StepRes.noConfusion h
  by_cases h3 : isSymbolStart c = true
  · rw [lexStep_symbol og c cs p h3] at h
    exact lexSymbol_len c cs _ t rest p2 h3 h
  by_cases h4 : c = '('
  · subst h4
    have e : lexStep og '(' cs p =
        .tok ⟨⟨p.line, p.col + 1⟩, 1, .Symbol .LeftBracket⟩ cs ⟨p.line, p.col + 1⟩ := rfl
    rw [e] at h
    injection h with ht hr hp
    have hl : t.len = 1 := by rw [← ht]
    subst hr
    omega
  by_cases h5 : c = ')'
  · subst h5
    have e : lexStep og ')' cs p =
        .tok ⟨⟨p.line, p.col + 1⟩, 1, .Symbol .RightBracket⟩ cs ⟨p.line, p.col + 1⟩ := rfl
    rw [e] at h
    injection h with ht hr hp
    have hl : t.len = 1 := by rw [← ht]
    subst hr
    omega
  by_cases h6 : c = '['
  · subst h6
    have e : lexStep og '[' cs p =
        .tok ⟨⟨p.line, p.col + 1⟩, 1, .Symbol .LeftSqBracket⟩ cs ⟨p.line, p.col + 1⟩ := rfl
    rw [e] at h
    injection h with ht hr hp
    have hl : t.len = 1 := by rw [← ht]
    subst hr
    omega
  by_cases h7 : c = ']'
  · subst h7
    have e : lexStep og ']' cs p =
        .tok ⟨⟨p.line, p.col + 1⟩, 1, .Symbol .RightSqBracket⟩ cs ⟨p.line, p.col + 1⟩ := rfl
    rw [e] at h
    injection h with ht hr hp
    have hl : t.len = 1 := by rw [← ht]
    subst hr
    omega
  by_cases h8 : c = '.'
  · subst h8
    have e : lexStep og '.' cs p =
        .tok ⟨⟨p.line, p.col + 1⟩, 1, .Symbol .Dot⟩ cs ⟨p.line, p.col + 1⟩ := rfl
    rw [e] at h
    injection h with ht hr hp
    have hl : t.len = 1 := by rw [← ht]
    subst hr
    omega
  by_cases h9 : c = '"'
  · subst h9
    rw [lexStep_string og cs p] at h
    refine lexString_len cs _ t rest p2 ?_ h
    intro x hx
    exact hA x (List.mem_cons_of_mem _ hx)
  by_cases h10 : c.isDigit = true
  · rw [lexStep_numeric og c cs p h1 h2 h3 h4 h5 h6 h7 h8 h9 h10] at h
    exact lexNumeric_len c cs _ t rest p2 hA h
  by_cases h11 : c.isAlpha = true ∨ c = '_'
  · rw [lexStep_identk og c cs p h1 h2 h3 h4 h5 h6 h7 h8 h9 h10 h11] at h
    exact lexIdentOrKeyword_len c cs _ t rest p2 hA h
  · rw [lexStep_err og c cs p h1 h2 h3 h4 h5 h6 h7 h8 h9 h10 h11] at h
    exact StepRes.noConfusion h

/-- Witness for C8: lexing a lone `a` produces a token with `len = 1`
from one consumed character. -/
theorem c8_witness :
    (lexStep "a" 'a' [] ⟨1, 0⟩ = .tok ⟨⟨1, 0⟩, 1, .Ident "a"⟩ [] ⟨1, 1⟩) ∧
    ((⟨⟨1, 0⟩, 1, .Ident "a"⟩ : Token).len + ([] : List Char).length =
      ([] : List Char).length + 1) :=
  ⟨rfl, c8_token_len_ascii "a" 'a' [] ⟨1, 0⟩ ⟨⟨1, 0⟩, 1, .Ident "a"⟩ [] ⟨1, 1⟩
    (by decide) rfl⟩

/-- C9: an `If` or `While` whose condition node is not syntactically a
`BinaryExpr` is a fatal runtime error even when the node would evaluate
to a `Boolean` (e.g. `Primary (Boolean true)`), because `run_expr`
rejects every non-`BinaryExpr` node; a `BinaryExpr` condition that
evaluates to a `Boolean` selects the corresponding branch. -/
theorem c9_condition_must_be_binary :
    (∀ fuel st e thn els, (∀ l op r, e ≠ .BinaryExpr l op r) →
      run_if fuel st (.IfExpr e thn els) = none) ∧
    (run_if 3 st0 (.IfExpr (.Primary (.Boolean true)) (.Block []) (.Block [])) = none) ∧
    (∀ fuel st e body, (∀ l op r, e ≠ .BinaryExpr l op r) →
      run_while fuel st (.WhileStmt e body) = none) ∧
    (∀ fuel st st1 cond thn els,
      run_expr fuel st cond = some (.Boolean true, st1) →
      run_if (fuel + 1) st (.IfExpr cond thn els) = run_node fuel st1 thn) ∧
    (∀ fuel st st1 cond thn els,
      run_expr fuel st cond = some (.Boolean false, st1) →
      run_if (fuel + 1) st (.IfExpr cond thn els) = run_node fuel st1 els) := by
  refine ⟨?_, rfl, ?_, ?_, ?_⟩
  · intro fuel st e thn els h
    cases fuel with
    | zero => rfl
    | succ fuel => simp [run_if, run_expr_not_binary fuel st e h]
  · intro fuel st e body h
    cases fuel with
    | zero => rfl
    | succ fuel =>
      cases fuel with
      | zero => rfl
      | succ fuel =>
        simp [run_while, while_loop, evaluate_condition_not_binary _ st e h]
  · intro fuel st st1 cond thn els h
    simp [run_if, h]
  · intro fuel st st1 cond thn els h
    simp [run_if, h]

/-- Witness for C9: a bare variable-reference condition is fatal for both
`if` and `while`, and the `BinaryExpr` condition `1 < 2` runs the then
branch. -/
theorem c9_witness :
    (run_if 4 st0 (.IfExpr (.VariableRef "b") (.Block []) (.Block [])) = none) ∧
    (run_while 4 st0 (.WhileStmt (.VariableRef "b") (.Block [])) = none) ∧
    (run_if 3 st0 (.IfExpr (.BinaryExpr (.Primary (.Number 1)) .Less (.Primary (.Number 2)))
        (.Block []) (.Block [])) = run_node 2 st0 (.Block [])) :=
  ⟨c9_condition_must_be_binary.1 4 st0 _ _ _ (fun _ _ _ => by simp),
   c9_condition_must_be_binary.2.2.1 4 st0 _ _ (fun _ _ _ => by simp),
   c9_condition_must_be_binary.2.2.2.1 2 st0 st0 _ _ _ rfl⟩

/-- C10: every `FuncCall` node in the AST of a successful parse carries
at most one argument (`parse_func_call` pushes zero or exactly one), so
the interpreter's fatal more-than-one-argument branches in `print`,
`input` and `int` — which fire exactly on argument lists of length
greater than one — are unreachable on any parser-produced AST. -/
theorem c10_parser_args_at_most_one :
    (∀ input fuel ts res rest, parse input fuel ts = .ok (res, rest) →
      argsOK res = true) ∧
    (∀ i args, argsOK (.FuncCall i args) = true → args.length ≤ 1) ∧
    (∀ fuel st a b args2,
      builtin_print (fuel + 1) st (a :: b :: args2) = none ∧
      builtin_input (fuel + 1) st (a :: b :: args2) = none ∧
      builtin_casti (fuel + 1) st (a :: b :: args2) = none) := by
  refine ⟨?_, ?_, ?_⟩
  · intro input fuel ts res rest h
    exact (parser_argsOK_aux fuel).1 input ts [] res rest h rfl
  · intro i args h
    simp only [argsOK, Bool.and_eq_true, decide_eq_true_eq] at h
    exact h.1
  · intro fuel st a b args2
    exact ⟨rfl, rfl, rfl⟩

/-- Witness for C10: the parse of `print()` satisfies the invariant, and
a one-argument `FuncCall` passes the arity bound. -/
theorem c10_witness :
    (argsOK (.Block [.FuncCall "print" []]) = true) ∧
    (([Node.Primary (.Number 1)] : List Node).length ≤ 1) :=
  ⟨c10_parser_args_at_most_one.1 "" 5
      [mkTok (.Ident "print"), mkTok (.Symbol .LeftBracket),
        mkTok (.Symbol .RightBracket)] _ _ rfl,
   c10_parser_args_at_most_one.2.1 "print" [.Primary (.Number 1)] rfl⟩

end OcrInterp
